import Mathlib

/-!
Verification development for the portfolio analytics engine
(`src/metrics.py` of the fincanon repository).

The engine is floating-point Python/numpy/pandas code.  We embed it
shallowly over the exact reals: every float expression becomes a real
number, and the IEEE special values that the code can actually produce
(NaN, plus or minus infinity) are represented explicitly by the
`PyVal` type below.  Branches of the source that test a float
(`if port_vol > 0`, `if market_variance == 0`, ...) become branches on
the corresponding real predicate, with Python comparison semantics on
NaN (any comparison with NaN is false) reproduced by `pvPos`.

The two scipy solver calls in `optimize_portfolio` and the per-target
solver calls in `calculate_efficient_frontier` are external library
code (SLSQP), not code of this repository; they are modelled by an
oracle (`SolverOracle`) supplying the weight vectors the solver
returns, exactly as the surrounding repository code consumes them.
Everything computed FROM the solver outputs (stats, Sharpe fields,
annualisation, assembly into the report) is embedded faithfully.
-/

noncomputable section

open scoped Classical
open List

/-- Values a Python float expression can take: an (exact) finite real,
NaN, or a signed infinity.  `nan` also stands for pandas missing values,
which print as NaN and behave like it in arithmetic. -/
inductive PyVal where
  | fin : ℝ → PyVal
  | nan : PyVal
  | inf : PyVal
  | ninf : PyVal
deriving DecidableEq

namespace PyVal

/-- Multiplication with IEEE-754 special value rules
(NaN propagates; infinity times zero is NaN). -/
def pvMul : PyVal → PyVal → PyVal
  | fin x, fin y => fin (x * y)
  | fin x, inf => if x = 0 then nan else if 0 < x then inf else ninf
  | fin x, ninf => if x = 0 then nan else if 0 < x then ninf else inf
  | inf, fin y => if y = 0 then nan else if 0 < y then inf else ninf
  | ninf, fin y => if y = 0 then nan else if 0 < y then ninf else inf
  | inf, inf => inf
  | inf, ninf => ninf
  | ninf, inf => ninf
  | ninf, ninf => inf
  | nan, _ => nan
  | _, nan => nan

/-- Subtraction with IEEE-754 special value rules. -/
def pvSub : PyVal → PyVal → PyVal
  | fin x, fin y => fin (x - y)
  | fin _, inf => ninf
  | fin _, ninf => inf
  | inf, fin _ => inf
  | ninf, fin _ => ninf
  | inf, inf => nan
  | inf, ninf => inf
  | ninf, inf => ninf
  | ninf, ninf => nan
  | nan, _ => nan
  | _, nan => nan

/-- Division with IEEE-754 / numpy rules: `0/0` is NaN, a nonzero
finite numerator over zero is a signed infinity (the exact reals have
no signed zero, so the sign comes from the numerator alone, which is
what happens on every code path reached here). -/
def pvDiv : PyVal → PyVal → PyVal
  | fin x, fin y =>
      if y = 0 then (if x = 0 then nan else if 0 < x then inf else ninf)
      else fin (x / y)
  | fin _, inf => fin 0
  | fin _, ninf => fin 0
  | inf, fin y => if 0 ≤ y then inf else ninf
  | ninf, fin y => if 0 ≤ y then ninf else inf
  | inf, inf => nan
  | inf, ninf => nan
  | ninf, inf => nan
  | ninf, ninf => nan
  | nan, _ => nan
  | _, nan => nan

/-- Square root as numpy computes it: NaN for negative arguments
(and for NaN), infinity for infinity. -/
def pvSqrt : PyVal → PyVal
  | fin x => if x < 0 then nan else fin (Real.sqrt x)
  | nan => nan
  | inf => inf
  | ninf => nan

/-- Python truth value of `v > 0`; every comparison with NaN is false. -/
def pvPos : PyVal → Prop
  | fin x => 0 < x
  | nan => False
  | inf => True
  | ninf => False

/-- Absolute value (`abs` key used when ranking correlations). -/
def pvAbs : PyVal → PyVal
  | fin x => fin |x|
  | nan => nan
  | inf => inf
  | ninf => inf

/-- Python `<` on floats; false whenever either side is NaN. -/
def pvLt : PyVal → PyVal → Prop
  | fin x, fin y => x < y
  | fin _, inf => True
  | ninf, fin _ => True
  | ninf, inf => True
  | _, _ => False

/-- Binary step of the pandas NaN-skipping minimum: NaN operands are
ignored, otherwise the smaller value (with `-inf < finite < inf`) wins. -/
def pvMin2 : PyVal → PyVal → PyVal
  | nan, b => b
  | a, nan => a
  | ninf, _ => ninf
  | _, ninf => ninf
  | inf, b => b
  | a, inf => a
  | fin x, fin y => fin (min x y)

end PyVal

/-- Minimum of a pandas Series with default `skipna=True`: NaN entries
are skipped and an all-NaN (or empty) series has minimum NaN. -/
def pvMinList (l : List PyVal) : PyVal :=
  l.foldl PyVal.pvMin2 PyVal.nan

/-- Embedding of `clean_value` (metrics.py lines 349-353): NaN and the
two infinities become the JSON `null` marker (`none`), finite values
pass through unchanged. -/
def cleanValue : PyVal → Option PyVal
  | PyVal.fin x => some (PyVal.fin x)
  | _ => none

/-- Cleaning of a value that may already be Python `None` (the quarterly
Sharpe and the per-asset Sharpe are built as float-or-None before the
report applies `clean_value`, and `clean_value` leaves `None` alone). -/
def cleanOpt (o : Option PyVal) : Option PyVal :=
  o.bind cleanValue

/-- Mean of a list of reals, as `Series.mean` computes it on a
NaN-free series of positive length (sum divided by length). -/
def rmean (xs : List ℝ) : ℝ := xs.sum / xs.length

/-- Deviations from the mean. -/
def devs (xs : List ℝ) : List ℝ := xs.map (fun x => x - rmean xs)

/-- Sample covariance with the pandas/np.cov Bessel correction
(denominator `n - 1`); the mathematical value, valid on series of
length at least 2 (shorter series are handled by the callers below). -/
def sampleCov (xs ys : List ℝ) : ℝ :=
  (List.zipWith (fun a b => a * b) (devs xs) (devs ys)).sum / (xs.length - 1)

/-- Sample variance (`Series.var`, ddof = 1), denominator `n - 1`. -/
def sampleVar (xs : List ℝ) : ℝ :=
  ((devs xs).map (fun d => d ^ 2)).sum / (xs.length - 1)

/-- Population variance (`np.var`, ddof = 0), denominator `n`.  Note the
different Bessel convention from `sampleCov`/`sampleVar`. -/
def popVar (xs : List ℝ) : ℝ :=
  ((devs xs).map (fun d => d ^ 2)).sum / xs.length

/-- Dot product of two equally long real vectors (`np.dot`). -/
def dotR (xs ys : List ℝ) : ℝ :=
  (List.zipWith (fun a b => a * b) xs ys).sum

/-- Running products of `1 + r` continuing from accumulator `a`. -/
def cumProdAux (a : ℝ) : List ℝ → List ℝ
  | [] => []
  | r :: rest => (a * (1 + r)) :: cumProdAux (a * (1 + r)) rest

/-- Cumulative wealth curve `(1 + returns).cumprod()`
(metrics.py line 7): entry `t` is the product of `1 + r_i` for
`i ≤ t`. -/
def cumProd (rs : List ℝ) : List ℝ := cumProdAux 1 rs

/-- Helper for the expanding maximum: running maxima continuing from
an already accumulated maximum `m`. -/
def runningMaxAux (m : ℝ) : List ℝ → List ℝ
  | [] => []
  | x :: xs => max m x :: runningMaxAux (max m x) xs

/-- Embedding of `cumulative.expanding().max()` (metrics.py line 8):
entry `t` is the maximum of the first `t + 1` entries. -/
def runningMax : List ℝ → List ℝ
  | [] => []
  | x :: xs => x :: runningMaxAux x xs

/-- Pointwise drawdown series `(cumulative - running_max) / running_max`
(metrics.py line 9); a zero running maximum gives the IEEE result of
the float division. -/
def drawdownList (rs : List ℝ) : List PyVal :=
  List.zipWith (fun c m => PyVal.pvDiv (PyVal.fin (c - m)) (PyVal.fin m))
    (cumProd rs) (runningMax (cumProd rs))

/-- Embedding of `calculate_max_drawdown` (metrics.py lines 5-10):
the NaN-skipping minimum of the drawdown series. -/
def calculateMaxDrawdown (rs : List ℝ) : PyVal :=
  pvMinList (drawdownList rs)

/-- Embedding of `calculate_sortino_ratio` (metrics.py lines 12-21).
The downside standard deviation is a pandas `std` (ddof = 1), hence NaN
when fewer than two downside observations exist; the code turns a NaN
or zero downside deviation into NaN. -/
def calculateSortino (rs : List ℝ) (rfRate : ℝ) : PyVal :=
  let ex := rs.map (fun r => r - rfRate)
  let ds := ex.filter (fun e => e < 0)
  if ds.length ≤ 1 then PyVal.nan
  else if Real.sqrt (sampleVar ds) = 0 then PyVal.nan
  else PyVal.fin (rmean ex / Real.sqrt (sampleVar ds))

/-- Embedding of `calculate_beta` (metrics.py lines 23-34).  Note the
source mixes conventions: `np.cov` uses ddof = 1 (sample covariance)
while `np.var` uses ddof = 0 (population variance).  A length-0 or
length-1 or constant benchmark makes `np.var` zero (or NaN compared
equal to nothing), and every such path returns NaN, which the single
`popVar m = 0` test below captures exactly (`popVar` of a list of
length at most 1 is 0 here, and for those lengths numpy's NaN/0
variance also ends in the NaN result). -/
def calculateBeta (p m : List ℝ) : PyVal :=
  if p.length ≠ m.length then PyVal.nan
  else if popVar m = 0 then PyVal.nan
  else PyVal.fin (sampleCov p m / popVar m)

/-- Dtype of a pandas index: raw strings as parsed from a CSV, or a
DatetimeIndex after `pd.to_datetime`. -/
inductive IndexKind where
  | strIdx : IndexKind
  | datetimeIdx : IndexKind
deriving DecidableEq

/-- The ReturnMatrix handed to the engine: date labels (with their
index dtype), named asset columns, and one row of daily fractional
returns per date. -/
structure DataFrame where
  indexKind : IndexKind
  index : List String
  names : List String
  rows : List (List ℝ)

/-- Column `j` of the matrix, as the list of its per-row cells. -/
def colAt (df : DataFrame) (j : ℕ) : List ℝ :=
  df.rows.map (fun r => r.getD j 0)

/-- Number of observation rows. -/
def nRows (df : DataFrame) : ℕ := df.rows.length

/-- Embedding of `df.mean()` for column `j`: NaN on an empty frame. -/
def meanV (df : DataFrame) (j : ℕ) : PyVal :=
  if nRows df = 0 then PyVal.nan else PyVal.fin (rmean (colAt df j))

/-- Embedding of `df.std()` (ddof = 1) for column `j`: NaN on frames
with fewer than two rows. -/
def stdV (df : DataFrame) (j : ℕ) : PyVal :=
  if nRows df ≤ 1 then PyVal.nan
  else PyVal.fin (Real.sqrt (sampleVar (colAt df j)))

/-- Entry `(i, j)` of `df.cov()` as a real; mathematically meaningful
for frames with at least two rows (the callers guard shorter frames). -/
def dfCov (df : DataFrame) (i j : ℕ) : ℝ :=
  sampleCov (colAt df i) (colAt df j)

/-- Embedding of one entry of `df.corr()`: NaN on frames with fewer
than two rows and for pairs involving a zero-variance column, else
covariance over the product of the standard deviations. -/
def corrV (df : DataFrame) (i j : ℕ) : PyVal :=
  if nRows df ≤ 1 then PyVal.nan
  else if sampleVar (colAt df i) = 0 ∨ sampleVar (colAt df j) = 0 then PyVal.nan
  else PyVal.fin (dfCov df i j /
    (Real.sqrt (sampleVar (colAt df i)) * Real.sqrt (sampleVar (colAt df j))))

/-- Quadratic form `w . (cov_matrix . w)` over the real covariance
entries, as `np.dot(weights.T, np.dot(cov_matrix, weights))` computes
it on a NaN-free covariance matrix. -/
def quadForm (df : DataFrame) (w : List ℝ) : ℝ :=
  ∑ i ∈ Finset.range df.names.length,
    w.getD i 0 * ∑ j ∈ Finset.range df.names.length, dfCov df i j * w.getD j 0

/-- Portfolio expected return `np.dot(mean_returns, weights)`
(metrics.py line 191 and line 38).  With no assets or no weights the
numpy dot of empty vectors is 0.0; with rows absent but assets present
every mean is NaN and the dot is NaN; otherwise it is the real dot
product of the column means with the weights. -/
def portRetV (df : DataFrame) (w : List ℝ) : PyVal :=
  if w = [] ∨ df.names = [] then PyVal.fin 0
  else if nRows df = 0 then PyVal.nan
  else PyVal.fin (dotR ((List.range df.names.length).map (fun j => rmean (colAt df j))) w)

/-- Portfolio volatility `np.sqrt(np.dot(weights.T, np.dot(cov, w)))`
(metrics.py line 192 and line 39).  An empty weight vector gives the
dot value 0.0 and hence volatility 0; with fewer than two rows every
covariance entry is NaN, and a dot against a nonempty NaN vector is
NaN, hence so is the square root; otherwise the real value. -/
def portVolV (df : DataFrame) (w : List ℝ) : PyVal :=
  if w = [] then PyVal.fin 0
  else if nRows df ≤ 1 then PyVal.nan
  else PyVal.pvSqrt (PyVal.fin (quadForm df w))

/-- Daily portfolio Sharpe (metrics.py line 193): NaN when the
volatility does not compare strictly above zero. -/
def sharpeDailyV (df : DataFrame) (w : List ℝ) (rfDaily : ℝ) : PyVal :=
  if PyVal.pvPos (portVolV df w) then
    PyVal.pvDiv (PyVal.pvSub (portRetV df w) (PyVal.fin rfDaily)) (portVolV df w)
  else PyVal.nan

/-- Annualised portfolio return (metrics.py line 197). -/
def annRetV (df : DataFrame) (w : List ℝ) : PyVal :=
  PyVal.pvMul (portRetV df w) (PyVal.fin 252)

/-- Annualised portfolio volatility (metrics.py line 198). -/
def annVolV (df : DataFrame) (w : List ℝ) : PyVal :=
  PyVal.pvMul (portVolV df w) (PyVal.fin (Real.sqrt 252))

/-- Annualised portfolio Sharpe (metrics.py line 199), recomputed from
the annual figures with the annual risk-free rate. -/
def annSharpeV (df : DataFrame) (w : List ℝ) (rfAnnual : ℝ) : PyVal :=
  if PyVal.pvPos (annVolV df w) then
    PyVal.pvDiv (PyVal.pvSub (annRetV df w) (PyVal.fin rfAnnual)) (annVolV df w)
  else PyVal.nan

/-- Portfolio return series `df.dot(weights)` (metrics.py line 202),
rowwise dot products. -/
def portfolioReturns (df : DataFrame) (w : List ℝ) : List ℝ :=
  df.rows.map (fun r => dotR r w)

/-- Diversification ratio (metrics.py lines 266-267):
`np.dot(volatilities, weights) / port_vol` when the portfolio
volatility compares strictly above zero, NaN otherwise.  In the
positive branch the frame necessarily has at least two rows, so the
`df.std()` vector is NaN-free and the numerator is the real dot
product of the standard deviations with the weights. -/
def divRatioV (df : DataFrame) (w : List ℝ) : PyVal :=
  if PyVal.pvPos (portVolV df w) then
    PyVal.pvDiv
      (PyVal.fin (dotR ((List.range df.names.length).map
        (fun j => Real.sqrt (sampleVar (colAt df j)))) w))
      (portVolV df w)
  else PyVal.nan

/-- Standard deviation of a 90-observation trailing window ending at
day `i` (pandas `std`, ddof = 1; the window always holds 90 entries so
the value is a genuine real). -/
def windowStd (pr : List ℝ) (i : ℕ) : ℝ :=
  Real.sqrt (sampleVar ((pr.take (i + 1)).drop (i - 89)))

/-- Annualised Sharpe of the 90-day trailing window ending at day `i`
(metrics.py line 219). -/
def windowSharpe (pr : List ℝ) (rfDaily : ℝ) (i : ℕ) : ℝ :=
  ((rmean ((pr.take (i + 1)).drop (i - 89)) - rfDaily) / windowStd pr i) *
    Real.sqrt 252

/-- One emitted rolling-Sharpe chart point: the date of the window's
last day and the window's annualised Sharpe. -/
def rollingPoint (pr : List ℝ) (dates : List String) (rfDaily : ℝ) (i : ℕ) :
    String × ℝ :=
  (dates.getD i "", windowSharpe pr rfDaily i)

/-- Embedding of the rolling-Sharpe loop (metrics.py lines 210-223):
for each day index from 89 to the end, the trailing 90-day window's
annualised Sharpe is emitted when the window standard deviation
compares strictly above zero, and skipped otherwise; series shorter
than 90 observations produce no points at all. -/
def rollingSharpeSeries (pr : List ℝ) (dates : List String) (rfDaily : ℝ) :
    List (String × ℝ) :=
  if 90 ≤ pr.length then
    (List.range' 89 (pr.length - 89)).filterMap (fun i =>
      if 0 < windowStd pr i then some (rollingPoint pr dates rfDaily i)
      else none)
  else []

/-- Calendar quarter label of a `YYYY-MM-DD` date label, modelling
`DatetimeIndex.to_period('Q')` on such labels: the year followed by
`Q1`..`Q4` derived from the month digits. -/
def quarterOf (s : String) : String :=
  let month := (((s.drop 5).take 2).toNat?).getD 1
  s.take 4 ++ "Q" ++ toString ((month + 2) / 3)

/-- First-occurrence deduplication, as `Series.unique()` orders the
quarters it finds. -/
def uniquesFirst (l : List String) : List String :=
  l.foldl (fun acc q => if q ∈ acc then acc else acc ++ [q]) []

/-- Rows of the frame falling in quarter `q` (the groupby step of the
quarterly window loop, metrics.py lines 302-307). -/
def quarterRows (df : DataFrame) (q : String) : List (List ℝ) :=
  ((df.index.zip df.rows).filter (fun p => quarterOf p.1 = q)).map (fun p => p.2)

/-- The sub-frame of one quarter (same columns, the quarter's rows; the
index labels are not consulted by the per-quarter statistics). -/
def quarterFrame (df : DataFrame) (q : String) : DataFrame :=
  { indexKind := df.indexKind
    index := df.index.filter (fun d => quarterOf d = q)
    names := df.names
    rows := quarterRows df q }

/-- One reported quarterly window entry (metrics.py lines 309-327),
already passed through the report's `clean_value` comprehension on its
numeric fields (line 382): quarter label and day count are kept as-is,
return and volatility are cleaned floats, the Sharpe is float-or-None
before cleaning. -/
structure WindowEntry where
  quarter : String
  ret : Option PyVal
  volatility : Option PyVal
  sharpe : Option PyVal
  days : ℕ
deriving DecidableEq

/-- Quarterly metrics for one qualifying quarter.  A qualifying quarter
has at least 20 rows, so its statistics are NaN-free reals (comment on
metrics.py line 309), mirrored here by real-valued expressions. -/
def windowEntryOf (df : DataFrame) (w : List ℝ) (rfAnnual : ℝ) (q : String) :
    WindowEntry :=
  let qf := quarterFrame df q
  let qRet := dotR ((List.range df.names.length).map (fun j => rmean (colAt qf j))) w
  let qVol := Real.sqrt (quadForm qf w)
  let qAnnRet := qRet * 252
  let qAnnVol := qVol * Real.sqrt 252
  { quarter := q
    ret := cleanValue (PyVal.fin qAnnRet)
    volatility := cleanValue (PyVal.fin qAnnVol)
    sharpe := cleanOpt (if 0 < qAnnVol
      then some (PyVal.fin ((qAnnRet - rfAnnual) / qAnnVol)) else none)
    days := (quarterRows df q).length }

/-- The windowed-metrics list (metrics.py lines 300-327): one entry per
first-occurrence-ordered quarter holding at least 20 rows. -/
def windowedMetrics (df : DataFrame) (w : List ℝ) (rfAnnual : ℝ) :
    List WindowEntry :=
  ((uniquesFirst (df.index.map quarterOf)).filter
    (fun q => 20 ≤ (quarterRows df q).length)).map (windowEntryOf df w rfAnnual)

/-- One ranked correlation entry of the report (metrics.py lines
250-263 and 372); the correlation value is cleaned in the report. -/
structure TopCorr where
  asset1 : String
  asset2 : String
  correlation : Option PyVal
deriving DecidableEq

/-- All strictly-upper-triangle asset pairs with their raw correlation
(metrics.py lines 250-259), in enumeration order. -/
def corrPairs (df : DataFrame) : List (String × String × PyVal) :=
  (List.range df.names.length).flatMap (fun i =>
    (List.range df.names.length).filterMap (fun j =>
      if i < j then
        some (df.names.getD i "", df.names.getD j "", corrV df i j)
      else none))

/-- The Python stable descending sort on the absolute correlation key
(line 262), followed by `take 5` (line 263).  NaN keys compare false
both ways, as in Python. -/
def topFiveCorrs (df : DataFrame) : List (String × String × PyVal) :=
  ((corrPairs df).mergeSort (fun a b =>
    decide (¬ PyVal.pvLt (PyVal.pvAbs a.2.2) (PyVal.pvAbs b.2.2)))).take 5

/-- The reported `top_correlations` (metrics.py line 372): top five
pairs with the correlation value cleaned. -/
def topCorrelations (df : DataFrame) : List TopCorr :=
  (topFiveCorrs df).map (fun t =>
    { asset1 := t.1, asset2 := t.2.1, correlation := cleanValue t.2.2 })

/-- Marginal-contribution vector (metrics.py lines 333-336):
`cov_matrix.dot(weights) / port_vol**2 * weights * 252` entrywise when
the portfolio volatility compares strictly above zero (a branch in
which the covariance entries are genuine reals), `np.zeros(n)` times
`weights * 252` otherwise, which is the zero vector. -/
def varianceContribs (df : DataFrame) (w : List ℝ) : List ℝ :=
  if PyVal.pvPos (portVolV df w) then
    (List.range df.names.length).map (fun i =>
      (∑ j ∈ Finset.range df.names.length, dfCov df i j * w.getD j 0) /
        quadForm df w * w.getD i 0 * 252)
  else (List.range df.names.length).map (fun _ => 0)

/-- Per-asset annualised Sharpe (metrics.py lines 339-346): None when
the annualised asset volatility does not compare strictly above zero. -/
def assetSharpeOf (df : DataFrame) (rfAnnual : ℝ) (j : ℕ) : Option PyVal :=
  let volAnn := PyVal.pvMul (stdV df j) (PyVal.fin (Real.sqrt 252))
  let retAnn := PyVal.pvMul (meanV df j) (PyVal.fin 252)
  if PyVal.pvPos volAnn then
    some (PyVal.pvDiv (PyVal.pvSub retAnn (PyVal.fin rfAnnual)) volAnn)
  else none

/-- One optimal portfolio as `optimize_portfolio` returns it
(metrics.py lines 97-110): solver weights, their stats, and a Sharpe
that is 0 (not NaN) when the volatility does not compare strictly
above zero. -/
structure OptP where
  weights : List ℝ
  ret : PyVal
  volatility : PyVal
  sharpe : PyVal
deriving DecidableEq

/-- Stats and Sharpe for one solver weight vector (lines 90-109);
`portfolio_stats` is exactly the pair (`portRetV`, `portVolV`). -/
def optEntry (df : DataFrame) (w : List ℝ) (rfDaily : ℝ) : OptP :=
  { weights := w
    ret := portRetV df w
    volatility := portVolV df w
    sharpe := if PyVal.pvPos (portVolV df w) then
        PyVal.pvDiv (PyVal.pvSub (portRetV df w) (PyVal.fin rfDaily)) (portVolV df w)
      else PyVal.fin 0 }

/-- The pair of headline optimisations. -/
structure OptPair where
  min_variance : OptP
  max_sharpe : OptP
deriving DecidableEq

/-- Weight vectors returned by the external SLSQP solver runs: one for
the minimum-variance problem, one for the maximum-Sharpe problem, and
one optional vector per efficient-frontier target (`none` models a
solve whose `result.success` is false). -/
structure SolverOracle where
  minVarW : List ℝ
  maxSharpeW : List ℝ
  frontier : List (Option (List ℝ))

/-- Embedding of `optimize_portfolio` (metrics.py lines 53-110) given
the solver outputs. -/
def optimizePortfolio (o : SolverOracle) (df : DataFrame) (rfDaily : ℝ) :
    OptPair :=
  { min_variance := optEntry df o.minVarW rfDaily
    max_sharpe := optEntry df o.maxSharpeW rfDaily }

/-- Annualisation of one optimal portfolio (metrics.py lines 283-296):
return times 252, volatility times sqrt 252, and the DAILY Sharpe
scaled by sqrt 252. -/
def annualizeOpt (p : OptP) : OptP :=
  { weights := p.weights
    ret := PyVal.pvMul p.ret (PyVal.fin 252)
    volatility := PyVal.pvMul p.volatility (PyVal.fin (Real.sqrt 252))
    sharpe := PyVal.pvMul p.sharpe (PyVal.fin (Real.sqrt 252)) }

/-- One efficient-frontier point (metrics.py lines 148-155 and the
annualisation at 274-280). -/
structure FrontierPoint where
  ret : PyVal
  volatility : PyVal
  weights : List ℝ
deriving DecidableEq

/-- Embedding of `calculate_efficient_frontier` (lines 112-157): the
target returns only parametrise the external solver, so the collected
list is one stats record per converged solver output, in target
order. -/
def efficientFrontier (o : SolverOracle) (df : DataFrame) : List FrontierPoint :=
  o.frontier.filterMap (fun ow => ow.map (fun w =>
    { ret := portRetV df w, volatility := portVolV df w, weights := w }))

/-- Annualised frontier (metrics.py lines 273-280). -/
def frontierAnnual (o : SolverOracle) (df : DataFrame) : List FrontierPoint :=
  (efficientFrontier o df).map (fun p =>
    { ret := PyVal.pvMul p.ret (PyVal.fin 252)
      volatility := PyVal.pvMul p.volatility (PyVal.fin (Real.sqrt 252))
      weights := p.weights })

/-- The `time_series` block of the report (metrics.py lines 385-391),
numeric values cleaned. -/
structure TimeSeries where
  dates : List String
  portfolio_value : List (Option PyVal)
  rolling_sharpe : List (String × Option PyVal)
  drawdown : List (Option PyVal)
  asset_values : List (String × List (Option PyVal))
deriving DecidableEq

/-- The AnalyticsReport (metrics.py lines 355-396).  Fields the source
passes through `clean_value` are `Option PyVal` built by
`cleanValue`/`cleanOpt`; fields returned raw (`asset_means`,
`asset_vols`, `correlation_matrix`, `asset_weights`,
`optimal_portfolios`, `efficient_frontier`) keep their uncleaned
values.  Dict fields are association lists in Python dict insertion
order (column order). -/
structure Report where
  asset_means : List (String × PyVal)
  asset_vols : List (String × PyVal)
  portfolio_return_daily : Option PyVal
  portfolio_vol_daily : Option PyVal
  portfolio_sharpe_daily : Option PyVal
  portfolio_return_annual : Option PyVal
  portfolio_vol_annual : Option PyVal
  portfolio_sharpe_annual : Option PyVal
  max_drawdown : Option PyVal
  sortino_ratio_daily : Option PyVal
  sortino_ratio_annual : Option PyVal
  beta : Option PyVal
  correlation_matrix : List (String × List (String × PyVal))
  top_correlations : List TopCorr
  diversification_ratio : Option PyVal
  asset_weights : List (String × ℝ)
  asset_return_contributions : List (String × Option PyVal)
  asset_variance_contributions : List (String × Option PyVal)
  asset_sharpes : List (String × Option PyVal)
  windowed_metrics : List WindowEntry
  time_series : TimeSeries
  optimal_portfolios : OptPair
  efficient_frontier : List FrontierPoint

/-- The body of `analyze_portfolio` (metrics.py lines 175-396) after
the weight default has been resolved to a concrete weight vector and
the index made datetime; `rfAnnual` is the annual risk-free rate and
`rfAnnual / 252` its daily conversion (line 183). -/
def analyzeW (o : SolverOracle) (df : DataFrame) (w : List ℝ) (rfAnnual : ℝ) :
    Report :=
  let rfDaily := rfAnnual / 252
  let n := df.names.length
  let pr := portfolioReturns df w
  { asset_means := (List.range n).map (fun j => (df.names.getD j "", meanV df j))
    asset_vols := (List.range n).map (fun j => (df.names.getD j "", stdV df j))
    portfolio_return_daily := cleanValue (portRetV df w)
    portfolio_vol_daily := cleanValue (portVolV df w)
    portfolio_sharpe_daily := cleanValue (sharpeDailyV df w rfDaily)
    portfolio_return_annual := cleanValue (annRetV df w)
    portfolio_vol_annual := cleanValue (annVolV df w)
    portfolio_sharpe_annual := cleanValue (annSharpeV df w rfAnnual)
    max_drawdown := cleanValue (calculateMaxDrawdown pr)
    sortino_ratio_daily := cleanValue (calculateSortino pr rfDaily)
    sortino_ratio_annual := cleanValue
      (PyVal.pvMul (calculateSortino pr rfDaily) (PyVal.fin (Real.sqrt 252)))
    beta := cleanValue (if "SPY" ∈ df.names
      then calculateBeta pr (colAt df (df.names.indexOf "SPY"))
      else PyVal.nan)
    correlation_matrix := (List.range n).map (fun i =>
      (df.names.getD i "", (List.range n).map (fun j =>
        (df.names.getD j "", corrV df i j))))
    top_correlations := topCorrelations df
    diversification_ratio := cleanValue (divRatioV df w)
    asset_weights := df.names.zip w
    asset_return_contributions := (List.range n).map (fun j =>
      (df.names.getD j "", cleanValue
        (PyVal.pvMul (PyVal.pvMul (meanV df j) (PyVal.fin (w.getD j 0)))
          (PyVal.fin 252))))
    asset_variance_contributions :=
      df.names.zip ((varianceContribs df w).map (fun c => cleanValue (PyVal.fin c)))
    asset_sharpes := (List.range n).map (fun j =>
      (df.names.getD j "", cleanOpt (assetSharpeOf df rfAnnual j)))
    windowed_metrics := windowedMetrics df w rfAnnual
    time_series :=
      { dates := df.index
        portfolio_value := (cumProd pr).map (fun c => cleanValue (PyVal.fin (c * 100)))
        rolling_sharpe := (rollingSharpeSeries pr df.index rfDaily).map
          (fun p => (p.1, cleanValue (PyVal.fin p.2)))
        drawdown := (drawdownList pr).map
          (fun d => cleanValue (PyVal.pvMul d (PyVal.fin 100)))
        asset_values := (List.range n).map (fun j =>
          (df.names.getD j "",
            (cumProd (colAt df j)).map (fun c => cleanValue (PyVal.fin (c * 100))))) }
    optimal_portfolios :=
      { min_variance := annualizeOpt (optimizePortfolio o df rfDaily).min_variance
        max_sharpe := annualizeOpt (optimizePortfolio o df rfDaily).max_sharpe }
    efficient_frontier := frontierAnnual o df }

/-- The engine entry point with the optional weight vector: absent
weights default to `np.ones(n_assets) / n_assets`, i.e. the
equal-weight vector `1/N` repeated once per column (metrics.py lines
178-180).  The default annual risk-free rate in the source is 0.04. -/
def analyze (o : SolverOracle) (df : DataFrame) (w : Option (List ℝ))
    (rfAnnual : ℝ) : Report :=
  analyzeW o df
    (w.getD (List.replicate df.names.length ((1 : ℝ) / df.names.length))) rfAnnual

/-- Index conversion of `analyze_portfolio` lines 171-173: assigning
`pd.to_datetime(df.index)` to `df.index` mutates the CALLER's frame
when the index is not already datetime-typed (same date labels, new
dtype). -/
def toDatetimeFrame (df : DataFrame) : DataFrame :=
  if df.indexKind = IndexKind.datetimeIdx then df
  else { df with indexKind := IndexKind.datetimeIdx }

/-- Embedding of the full `analyze_portfolio` call including its effect
on the caller's frame: the returned report, paired with the state of
the argument frame after the call. -/
def analyzePortfolio (o : SolverOracle) (df : DataFrame) (w : Option (List ℝ))
    (rfAnnual : ℝ) : Report × DataFrame :=
  (analyze o (toDatetimeFrame df) w rfAnnual, toDatetimeFrame df)

/-! ### Claim-level predicates and concrete example inputs -/

/-- A PyVal that is an honest finite number. -/
def isFinV (v : PyVal) : Prop := ∃ x, v = PyVal.fin x

/-- A cleaned optional value carries no NaN or infinity: it is either
the absent marker or a finite number. -/
def cleanOk (o : Option PyVal) : Prop := ∀ v, o = some v → isFinV v

/-- All three numeric fields of an optimal-portfolio record finite. -/
def optPFinite (p : OptP) : Prop :=
  isFinV p.ret ∧ isFinV p.volatility ∧ isFinV p.sharpe

/-- Formalisation of claim C1 as stated: every numeric field of the
report, the raw dict fields included, is a finite number or the absent
marker. -/
def reportAllFinite (r : Report) : Prop :=
  (∀ p ∈ r.asset_means, isFinV p.2) ∧
  (∀ p ∈ r.asset_vols, isFinV p.2) ∧
  cleanOk r.portfolio_return_daily ∧
  cleanOk r.portfolio_vol_daily ∧
  cleanOk r.portfolio_sharpe_daily ∧
  cleanOk r.portfolio_return_annual ∧
  cleanOk r.portfolio_vol_annual ∧
  cleanOk r.portfolio_sharpe_annual ∧
  cleanOk r.max_drawdown ∧
  cleanOk r.sortino_ratio_daily ∧
  cleanOk r.sortino_ratio_annual ∧
  cleanOk r.beta ∧
  (∀ row ∈ r.correlation_matrix, ∀ e ∈ row.2, isFinV e.2) ∧
  (∀ t ∈ r.top_correlations, cleanOk t.correlation) ∧
  cleanOk r.diversification_ratio ∧
  (∀ p ∈ r.asset_return_contributions, cleanOk p.2) ∧
  (∀ p ∈ r.asset_variance_contributions, cleanOk p.2) ∧
  (∀ p ∈ r.asset_sharpes, cleanOk p.2) ∧
  (∀ e ∈ r.windowed_metrics, cleanOk e.ret ∧ cleanOk e.volatility ∧ cleanOk e.sharpe) ∧
  (∀ v ∈ r.time_series.portfolio_value, cleanOk v) ∧
  (∀ p ∈ r.time_series.rolling_sharpe, cleanOk p.2) ∧
  (∀ v ∈ r.time_series.drawdown, cleanOk v) ∧
  (∀ p ∈ r.time_series.asset_values, ∀ v ∈ p.2, cleanOk v) ∧
  optPFinite r.optimal_portfolios.min_variance ∧
  optPFinite r.optimal_portfolios.max_sharpe ∧
  (∀ fp ∈ r.efficient_frontier, isFinV fp.ret ∧ isFinV fp.volatility)

/-- The fields the source actually routes through `clean_value` (or
builds as float-or-None): these are the ones guaranteed finite-or-absent
for every input. -/
def cleanedFieldsOk (r : Report) : Prop :=
  cleanOk r.portfolio_return_daily ∧
  cleanOk r.portfolio_vol_daily ∧
  cleanOk r.portfolio_sharpe_daily ∧
  cleanOk r.portfolio_return_annual ∧
  cleanOk r.portfolio_vol_annual ∧
  cleanOk r.portfolio_sharpe_annual ∧
  cleanOk r.max_drawdown ∧
  cleanOk r.sortino_ratio_daily ∧
  cleanOk r.sortino_ratio_annual ∧
  cleanOk r.beta ∧
  (∀ t ∈ r.top_correlations, cleanOk t.correlation) ∧
  cleanOk r.diversification_ratio ∧
  (∀ p ∈ r.asset_return_contributions, cleanOk p.2) ∧
  (∀ p ∈ r.asset_variance_contributions, cleanOk p.2) ∧
  (∀ p ∈ r.asset_sharpes, cleanOk p.2) ∧
  (∀ e ∈ r.windowed_metrics, cleanOk e.ret ∧ cleanOk e.volatility ∧ cleanOk e.sharpe) ∧
  (∀ v ∈ r.time_series.portfolio_value, cleanOk v) ∧
  (∀ p ∈ r.time_series.rolling_sharpe, cleanOk p.2) ∧
  (∀ v ∈ r.time_series.drawdown, cleanOk v) ∧
  (∀ p ∈ r.time_series.asset_values, ∀ v ∈ p.2, cleanOk v)

/-- Solver oracle used for the concrete example inputs: equal/whole
weights for both headline solves, no converged frontier point. -/
def oracle0 : SolverOracle :=
  { minVarW := [1], maxSharpeW := [1], frontier := List.replicate 20 none }

/-- One-asset, one-row frame: makes every pandas ddof-1 statistic NaN. -/
def df1 : DataFrame :=
  { indexKind := IndexKind.datetimeIdx, index := ["2020-01-02"]
    names := ["A"], rows := [[0.1]] }

/-- Same frame with a raw string index, as it arrives from a CSV parse
without `parse_dates`. -/
def dfStr : DataFrame :=
  { indexKind := IndexKind.strIdx, index := ["2020-01-02"]
    names := ["A"], rows := [[0.1]] }

/-- Two uncorrelated assets over three days: column A is `[1, -1, 0]`
(variance 1), column B is `[1, 1, -2]` (variance 3), covariance 0. -/
def df5 : DataFrame :=
  { indexKind := IndexKind.datetimeIdx
    index := ["2020-01-02", "2020-01-03", "2020-01-06"]
    names := ["A", "B"], rows := [[1, 1], [-1, 1], [0, -2]] }

/-- One asset over two days with returns 0 and 2 (sample variance 2). -/
def df2r : DataFrame :=
  { indexKind := IndexKind.datetimeIdx, index := ["2020-01-02", "2020-01-03"]
    names := ["A"], rows := [[0], [2]] }

/-- One asset with two identical returns: zero variance everywhere. -/
def df7 : DataFrame :=
  { indexKind := IndexKind.datetimeIdx, index := ["2020-01-02", "2020-01-03"]
    names := ["A"], rows := [[0.01], [0.01]] }

/-! ### Shared list lemmas -/

/-- Reading every position of a list through `getD` over its index range
reproduces the list. -/
theorem map_getD_range {α : Type} (l : List α) (d : α) :
    (List.range l.length).map (fun j => l.getD j d) = l := by
  induction l with
  | nil => simp
  | cons x xs ih =>
    rw [List.length_cons, List.range_succ_eq_map, List.map_cons, List.map_map]
    have hc : ((fun j => (x :: xs).getD j d) ∘ Nat.succ) = fun j => xs.getD j d := by
      funext j
      rfl
    rw [List.getD_cons_zero, hc, ih]

/-- Sum of a pointwise product as a `Finset.range` sum. -/
theorem zipWith_mul_sum_range (a : List ℝ) :
    ∀ b : List ℝ, a.length = b.length →
      (List.zipWith (fun x y => x * y) a b).sum =
        ∑ i ∈ Finset.range a.length, a.getD i 0 * b.getD i 0 := by
  induction a with
  | nil => intro b _; simp
  | cons x xs ih =>
    intro b hb
    cases b with
    | nil => simp at hb
    | cons y ys =>
      have hlen : xs.length = ys.length := by simpa using hb
      rw [List.zipWith_cons_cons, List.sum_cons, ih ys hlen, List.length_cons,
        Finset.sum_range_succ']
      simp [add_comm]

/-- Dot product against a list of values read off an index function. -/
theorem dotR_map_range (w : List ℝ) :
    ∀ f : ℕ → ℝ, dotR ((List.range w.length).map f) w =
      ∑ i ∈ Finset.range w.length, f i * w.getD i 0 := by
  induction w with
  | nil => intro f; simp [dotR]
  | cons x xs ih =>
    intro f
    rw [List.length_cons, List.range_succ_eq_map, List.map_cons, List.map_map]
    rw [dotR, List.zipWith_cons_cons, List.sum_cons, Finset.sum_range_succ']
    have := ih (fun j => f (j + 1))
    simp only [dotR] at this
    simp [Function.comp_def, this, add_comm]

/-- Zipping a list with itself is a map along the diagonal. -/
theorem zipWith_self {α β : Type} (f : α → α → β) (l : List α) :
    List.zipWith f l l = l.map (fun a => f a a) := by
  induction l with
  | nil => rfl
  | cons x xs ih => simp [ih]

/-- Positional access into a zip of two sufficiently long lists. -/
theorem zip_getD {α β : Type} (as : List α) :
    ∀ (bs : List β) (i : ℕ) (da : α) (db : β), i < as.length → i < bs.length →
      (as.zip bs).getD i (da, db) = (as.getD i da, bs.getD i db) := by
  induction as with
  | nil => intro bs i da db h; exact absurd h (by simp)
  | cons a as ih =>
    intro bs i da db ha hb
    cases bs with
    | nil => exact absurd hb (by simp)
    | cons b bs =>
      cases i with
      | zero => simp
      | succ i =>
        have ha' : i < as.length := by simpa using ha
        have hb' : i < bs.length := by simpa using hb
        simpa using ih bs i da db ha' hb'

/-- Positional access into a map over an index range. -/
theorem getD_map_range {α : Type} (n : ℕ) (f : ℕ → α) (i : ℕ) (d : α)
    (h : i < n) : (((List.range n).map f).getD i d) = f i := by
  rw [List.getD_eq_getElem?_getD, List.getElem?_map, List.getElem?_range h]
  rfl

/-- Entries of a list are bounded below by 0 through `getD` when all
members are nonnegative. -/
theorem getD_nonneg (w : List ℝ) (hw : ∀ a ∈ w, 0 ≤ a) (i : ℕ) :
    0 ≤ w.getD i 0 := by
  rcases lt_or_le i w.length with h | h
  · rw [List.getD_eq_getElem?_getD, List.getElem?_eq_getElem h]
    exact hw _ (List.getElem_mem h)
  · rw [List.getD_eq_getElem?_getD, List.getElem?_eq_none h]
    simp

/-! ### Statistics helper lemmas -/

/-- Self-covariance as a ratio of the squared-deviation sum. -/
theorem sampleCov_self (x : List ℝ) :
    sampleCov x x = ((devs x).map (fun d => d ^ 2)).sum / (x.length - 1) := by
  rw [sampleCov, zipWith_self]
  have hc : ((devs x).map fun a => a * a) = (devs x).map fun d => d ^ 2 := by
    refine List.map_congr_left ?_
    intro d _
    ring
  rw [hc]

/-- Squared-deviation sums are nonnegative. -/
theorem devsq_sum_nonneg (x : List ℝ) :
    0 ≤ ((devs x).map (fun d => d ^ 2)).sum := by
  refine List.sum_nonneg ?_
  intro y hy
  rcases List.mem_map.mp hy with ⟨d, _, rfl⟩
  positivity

/-- A nonzero population variance forces at least two observations and
a nonzero squared-deviation sum. -/
theorem popVar_ne_zero_facts (x : List ℝ) (h : popVar x ≠ 0) :
    2 ≤ x.length ∧ ((devs x).map (fun d => d ^ 2)).sum ≠ 0 := by
  match x with
  | [] => exact absurd (by simp [popVar]) h
  | [a] =>
    have : popVar [a] = 0 := by
      simp [popVar, devs, rmean]
    exact absurd this h
  | a :: b :: bs =>
    refine ⟨by simp [List.length_cons], ?_⟩
    intro h0
    exact h (by simp [popVar, h0])

/-! ### Claim C3 -/

/-- Claim C3 (confirmed): calling the engine with the weight vector
absent produces exactly the report of the explicit equal-weight vector
`[1/N] * N`, where `N` is the number of asset columns. -/
theorem c3_default_weights_equal_weighting (o : SolverOracle) (df : DataFrame)
    (rf : ℝ) :
    analyze o df none rf =
      analyze o df
        (some (List.replicate df.names.length ((1 : ℝ) / df.names.length))) rf := rfl

/-! ### Claim C9 -/

/-- Claim C9 counterexample: on a frame whose index is not yet
datetime-typed, the caller's frame after `analyze_portfolio` is not the
frame that was passed in — line 173 of metrics.py reassigns
`df.index = pd.to_datetime(df.index)` on the caller's object. -/
theorem c9_counterexample :
    (analyzePortfolio oracle0 dfStr none 0.04).2 ≠ dfStr := by
  intro h
  have hk := congrArg DataFrame.indexKind h
  simp [analyzePortfolio, toDatetimeFrame, dfStr] at hk

/-- Claim C9 (corrected): the report is a pure function of the inputs
and the call leaves the frame's date labels, column names and every
cell unchanged, but the index dtype of the caller's frame is converted
to datetime in place (a visible argument mutation), so the frame as a
whole is not left unchanged. -/
theorem c9_frame_effects (o : SolverOracle) (df : DataFrame)
    (w : Option (List ℝ)) (rf : ℝ) :
    (analyzePortfolio o df w rf).2.index = df.index ∧
    (analyzePortfolio o df w rf).2.names = df.names ∧
    (analyzePortfolio o df w rf).2.rows = df.rows ∧
    (analyzePortfolio o df w rf).2.indexKind = IndexKind.datetimeIdx ∧
    (analyzePortfolio o df w rf).1 = analyze o df w rf := by
  obtain ⟨k, idx, nm, rws⟩ := df
  cases k with
  | strIdx =>
    refine ⟨rfl, rfl, rfl, ?_, ?_⟩
    · simp [analyzePortfolio, toDatetimeFrame]
    · rfl
  | datetimeIdx =>
    refine ⟨rfl, rfl, rfl, ?_, ?_⟩
    · simp [analyzePortfolio, toDatetimeFrame]
    · rfl

/-! ### Claim C8 -/

/-- Claim C8 counterexample: the code divides the ddof-1 sample
covariance (`np.cov`) by the ddof-0 population variance (`np.var`), so
the reported beta differs from the claim's same-convention quotient:
on the series `[1, 2]` against itself the code reports 2 while the
same-convention quotient (sample covariance over sample variance)
is 1. -/
theorem c8_counterexample :
    ¬ (calculateBeta [(1 : ℝ), 2] [(1 : ℝ), 2] =
        PyVal.fin (sampleCov [(1 : ℝ), 2] [(1 : ℝ), 2] / sampleVar [(1 : ℝ), 2])) := by
  have h1 : calculateBeta [(1 : ℝ), 2] [(1 : ℝ), 2] = PyVal.fin 2 := by
    rw [calculateBeta, if_neg (by simp), if_neg (by norm_num [popVar, devs, rmean])]
    norm_num [sampleCov, popVar, devs, rmean]
  have h2 : sampleCov [(1 : ℝ), 2] [(1 : ℝ), 2] / sampleVar [(1 : ℝ), 2] = 1 := by
    norm_num [sampleCov, sampleVar, devs, rmean]
  rw [h1, h2]
  intro h
  have := PyVal.fin.inj h
  norm_num at this

/-- Claim C8 (corrected): `calculate_beta` divides the sample
covariance (ddof 1) by the population variance (ddof 0), so the beta of
any series with nonzero population variance against itself is
`n / (n - 1)`, not 1. -/
theorem c8_self_beta_value (x : List ℝ) (h : popVar x ≠ 0) :
    calculateBeta x x =
      PyVal.fin ((x.length : ℝ) / ((x.length : ℝ) - 1)) := by
  obtain ⟨h2, hS⟩ := popVar_ne_zero_facts x h
  rw [calculateBeta, if_neg (by simp), if_neg h]
  congr 1
  rw [sampleCov_self, popVar]
  have hn : (x.length : ℝ) ≠ 0 := by
    have : (0 : ℝ) < (x.length : ℝ) := by exact_mod_cast lt_of_lt_of_le (by norm_num) h2
    linarith
  have hn1 : (x.length : ℝ) - 1 ≠ 0 := by
    have : (2 : ℝ) ≤ (x.length : ℝ) := by exact_mod_cast h2
    linarith
  field_simp
  ring

/-- Claim C8 witness: the amended statement evaluated on the concrete
series `[1, 2]` (population variance 1/4, reported beta 2 = 2/(2-1)). -/
theorem c8_witness :
    popVar [(1 : ℝ), 2] ≠ 0 ∧
      calculateBeta [(1 : ℝ), 2] [(1 : ℝ), 2] =
        PyVal.fin ((([(1 : ℝ), 2].length : ℝ)) / (([(1 : ℝ), 2].length : ℝ) - 1)) :=
  ⟨by norm_num [popVar, devs, rmean],
    c8_self_beta_value _ (by norm_num [popVar, devs, rmean])⟩

/-! ### Drawdown lemmas and claim C4 -/

/-- Cumulative products stay nonzero when the accumulator and every
factor `1 + r` are nonzero. -/
theorem cumProdAux_ne_zero (rs : List ℝ) :
    ∀ a : ℝ, a ≠ 0 → (∀ r ∈ rs, 1 + r ≠ 0) → ∀ c ∈ cumProdAux a rs, c ≠ 0 := by
  induction rs with
  | nil => intro a _ _ c hc; simp [cumProdAux] at hc
  | cons r rest ih =>
    intro a ha hf c hc
    rw [cumProdAux] at hc
    rcases List.mem_cons.mp hc with h | h
    · subst h
      exact mul_ne_zero ha (hf r (by simp))
    · exact ih (a * (1 + r)) (mul_ne_zero ha (hf r (by simp)))
        (fun r' hr' => hf r' (by simp [hr'])) c h

/-- Every running maximum continuing from `m` is `m` itself or one of
the list's entries. -/
theorem runningMaxAux_mem (l : List ℝ) :
    ∀ m, ∀ v ∈ runningMaxAux m l, v = m ∨ v ∈ l := by
  induction l with
  | nil => intro m v hv; simp [runningMaxAux] at hv
  | cons x xs ih =>
    intro m v hv
    rw [runningMaxAux] at hv
    rcases List.mem_cons.mp hv with h | h
    · subst h
      rcases max_choice m x with h' | h'
      · exact Or.inl h'
      · exact Or.inr (by simp [h'])
    · rcases ih (max m x) v h with h' | h'
      · subst h'
        rcases max_choice m x with h'' | h''
        · exact Or.inl h''
        · exact Or.inr (by simp [h''])
      · exact Or.inr (by simp [h'])

/-- Every entry of the expanding maximum is an entry of the curve. -/
theorem runningMax_mem (l : List ℝ) : ∀ v ∈ runningMax l, v ∈ l := by
  cases l with
  | nil => simp [runningMax]
  | cons x xs =>
    intro v hv
    rw [runningMax] at hv
    rcases List.mem_cons.mp hv with h | h
    · simp [h]
    · rcases runningMaxAux_mem xs x v h with h' | h'
      · simp [h']
      · simp [h']

/-- Members of a zip-with come from members of the two lists. -/
theorem zipWith_mem {α β γ : Type} (f : α → β → γ) (as : List α) :
    ∀ (bs : List β), ∀ v ∈ List.zipWith f as bs,
      ∃ a ∈ as, ∃ b ∈ bs, v = f a b := by
  induction as with
  | nil => intro bs v hv; simp at hv
  | cons a as ih =>
    intro bs v hv
    cases bs with
    | nil => simp at hv
    | cons b bs =>
      rw [List.zipWith_cons_cons] at hv
      rcases List.mem_cons.mp hv with h | h
      · exact ⟨a, by simp, b, by simp, h⟩
      · rcases ih bs v h with ⟨a', ha', b', hb', hv'⟩
        exact ⟨a', by simp [ha'], b', by simp [hb'], hv'⟩

/-- When no single return is exactly -1, every drawdown entry is a
finite number (the running maximum, being one of the nonzero curve
values, is a nonzero denominator). -/
theorem drawdownList_fin (rs : List ℝ) (h : ∀ r ∈ rs, 1 + r ≠ 0) :
    ∀ v ∈ drawdownList rs, ∃ y, v = PyVal.fin y := by
  intro v hv
  rw [drawdownList] at hv
  rcases zipWith_mem _ _ _ v hv with ⟨c, _, m, hm, rfl⟩
  have hm0 : m ≠ 0 :=
    cumProdAux_ne_zero rs 1 one_ne_zero h m (runningMax_mem _ m hm)
  exact ⟨(c - m) / m, by simp [PyVal.pvDiv, hm0]⟩

/-- The first drawdown entry is a genuine zero whenever the first
wealth value is nonzero. -/
theorem drawdownList_head (r0 : ℝ) (rest : List ℝ) (h0 : 1 + r0 ≠ 0) :
    PyVal.fin 0 ∈ drawdownList (r0 :: rest) := by
  rw [drawdownList, cumProd, cumProdAux, runningMax, List.zipWith_cons_cons]
  refine List.mem_cons.mpr (Or.inl ?_)
  simp [PyVal.pvDiv, h0]

/-- Folding the NaN-skipping minimum over a NaN-free list starting from
a finite accumulator returns a finite attained lower bound. -/
theorem foldl_pvMin2_fin (l : List PyVal) :
    ∀ a : ℝ, (∀ v ∈ l, ∃ y, v = PyVal.fin y) →
      ∃ x, l.foldl PyVal.pvMin2 (PyVal.fin a) = PyVal.fin x ∧ x ≤ a ∧
        (x = a ∨ PyVal.fin x ∈ l) ∧ ∀ y, PyVal.fin y ∈ l → x ≤ y := by
  induction l with
  | nil => intro a _; exact ⟨a, rfl, le_refl a, Or.inl rfl, by simp⟩
  | cons v vs ih =>
    intro a h
    obtain ⟨b, rfl⟩ := h v (by simp)
    have hstep : (PyVal.fin b :: vs).foldl PyVal.pvMin2 (PyVal.fin a) =
        vs.foldl PyVal.pvMin2 (PyVal.fin (min a b)) := rfl
    obtain ⟨x, hx, hle, hmem, hlb⟩ :=
      ih (min a b) (fun v' hv' => h v' (by simp [hv']))
    refine ⟨x, by rw [hstep, hx], hle.trans (min_le_left a b), ?_, ?_⟩
    · rcases hmem with h' | h'
      · rcases min_choice a b with h'' | h''
        · exact Or.inl (h'.trans h'')
        · exact Or.inr (by simp [h'.trans h''])
      · exact Or.inr (by simp [h'])
    · intro y hy
      rcases List.mem_cons.mp hy with h' | h'
      · rw [PyVal.fin.inj h']
        exact hle.trans (min_le_right a b)
      · exact hlb y h'

/-- The pandas NaN-skipping minimum of a nonempty NaN-free series is a
finite entry of the series bounding every entry from below. -/
theorem pvMinList_fin (l : List PyVal) (hne : l ≠ [])
    (h : ∀ v ∈ l, ∃ y, v = PyVal.fin y) :
    ∃ x, pvMinList l = PyVal.fin x ∧ PyVal.fin x ∈ l ∧
      ∀ y, PyVal.fin y ∈ l → x ≤ y := by
  cases l with
  | nil => exact absurd rfl hne
  | cons v vs =>
    obtain ⟨a, rfl⟩ := h v (by simp)
    have hstep : pvMinList (PyVal.fin a :: vs) =
        vs.foldl PyVal.pvMin2 (PyVal.fin a) := rfl
    obtain ⟨x, hx, hle, hmem, hlb⟩ :=
      foldl_pvMin2_fin vs a (fun v' hv' => h v' (by simp [hv']))
    refine ⟨x, by rw [hstep, hx], ?_, ?_⟩
    · rcases hmem with h' | h'
      · simp [h']
      · simp [h']
    · intro y hy
      rcases List.mem_cons.mp hy with h' | h'
      · rw [PyVal.fin.inj h']
        exact hle
      · exact hlb y h'

/-- On a non-decreasing curve the expanding maximum continuing from the
head reproduces the tail. -/
theorem runningMaxAux_chain (l : List ℝ) :
    ∀ m, List.Chain' (· ≤ ·) (m :: l) → runningMaxAux m l = l := by
  induction l with
  | nil => intro m _; rfl
  | cons x xs ih =>
    intro m hch
    have hmx : m ≤ x := (List.chain'_cons.mp hch).1
    have htail : List.Chain' (· ≤ ·) (x :: xs) := (List.chain'_cons.mp hch).2
    rw [runningMaxAux, max_eq_right hmx, ih x htail]

/-- On a non-decreasing curve the expanding maximum is the curve. -/
theorem runningMax_of_chain (l : List ℝ) (h : List.Chain' (· ≤ ·) l) :
    runningMax l = l := by
  cases l with
  | nil => rfl
  | cons x xs => rw [runningMax, runningMaxAux_chain xs x h]

/-- Claim C4 counterexample: on the one-day series with return exactly
-1 the wealth curve is `[0]`, the drawdown entry is the float 0/0 (NaN),
and the NaN-skipping minimum is NaN — the reported max drawdown is the
absent marker, not a number that is at most 0. -/
theorem c4_counterexample :
    calculateMaxDrawdown [(-1 : ℝ)] = PyVal.nan ∧
      ¬ ∃ x, calculateMaxDrawdown [(-1 : ℝ)] = PyVal.fin x ∧ x ≤ 0 := by
  have h0 : cumProd [(-1 : ℝ)] = [0] := by
    norm_num [cumProd, cumProdAux]
  have h : calculateMaxDrawdown [(-1 : ℝ)] = PyVal.nan := by
    rw [calculateMaxDrawdown, drawdownList, h0]
    simp [runningMax, runningMaxAux, PyVal.pvDiv, pvMinList, PyVal.pvMin2]
  refine ⟨h, ?_⟩
  rintro ⟨x, hx, -⟩
  rw [h] at hx
  exact PyVal.noConfusion hx

/-- Claim C4 (corrected): for every nonempty return series in which no
single return is exactly -1 (so the wealth curve never hits zero), the
max drawdown is a finite number at most 0, and it is exactly 0 whenever
the wealth curve is monotonically non-decreasing.  (At a return of
exactly -1 the code reports NaN, cleaned to the absent marker — see the
counterexample.) -/
theorem c4_max_drawdown_nonpositive (rs : List ℝ) (hne : rs ≠ [])
    (h : ∀ r ∈ rs, 1 + r ≠ 0) :
    (∃ x, calculateMaxDrawdown rs = PyVal.fin x ∧ x ≤ 0) ∧
      (List.Chain' (· ≤ ·) (cumProd rs) → calculateMaxDrawdown rs = PyVal.fin 0) := by
  obtain ⟨r0, rest, rfl⟩ : ∃ r0 rest, rs = r0 :: rest := by
    cases rs with
    | nil => exact absurd rfl hne
    | cons a b => exact ⟨a, b, rfl⟩
  have hfin := drawdownList_fin (r0 :: rest) h
  have hhead := drawdownList_head r0 rest (h r0 (by simp))
  have hdne : drawdownList (r0 :: rest) ≠ [] := by
    intro hnil
    rw [hnil] at hhead
    simp at hhead
  obtain ⟨x, hx, hxmem, hlb⟩ := pvMinList_fin _ hdne hfin
  constructor
  · exact ⟨x, hx, hlb 0 hhead⟩
  · intro hch
    have hrm := runningMax_of_chain _ hch
    have hzero : ∀ v ∈ drawdownList (r0 :: rest), v = PyVal.fin 0 := by
      intro v hv
      rw [drawdownList, hrm, zipWith_self] at hv
      rcases List.mem_map.mp hv with ⟨c, hc, rfl⟩
      have hc0 : c ≠ 0 := cumProdAux_ne_zero _ 1 one_ne_zero h c hc
      simp [PyVal.pvDiv, hc0]
    have hx0 : x = 0 := by
      have := hzero _ hxmem
      exact PyVal.fin.inj this
    rw [hx0] at hx
    exact hx

/-- Claim C4 witness: the amended statement on the one-day series with
return 0.1 — a monotone wealth curve whose reported max drawdown is the
finite value 0. -/
theorem c4_witness : calculateMaxDrawdown [(0.1 : ℝ)] = PyVal.fin 0 :=
  (c4_max_drawdown_nonpositive [(0.1 : ℝ)] (by simp) (by norm_num)).2
    (by norm_num [cumProd, cumProdAux])

/-! ### Optimizer lemmas and claim C2 -/

/-- Inverting a finite product against a positive finite multiplier:
only finite inputs can produce a finite IEEE product. -/
theorem pvMul_fin_pos (v : PyVal) (c av : ℝ) (hc : 0 < c)
    (h : PyVal.pvMul v (PyVal.fin c) = PyVal.fin av) :
    ∃ x, v = PyVal.fin x ∧ av = x * c := by
  cases v with
  | fin x => exact ⟨x, rfl, (PyVal.fin.inj h).symm⟩
  | nan => simp [PyVal.pvMul] at h
  | inf => simp [PyVal.pvMul, hc, hc.ne'] at h
  | ninf => simp [PyVal.pvMul, hc, hc.ne'] at h

/-- Inverting a finite positive portfolio volatility: the weight vector
is nonempty, the frame has at least two rows, and the value is the
square root of the (positive) quadratic form. -/
theorem portVolV_fin_pos (df : DataFrame) (w : List ℝ) (v : ℝ)
    (h : portVolV df w = PyVal.fin v) (hv : 0 < v) :
    w ≠ [] ∧ 2 ≤ nRows df ∧ v = Real.sqrt (quadForm df w) ∧
      0 < quadForm df w := by
  by_cases hw : w = []
  · rw [portVolV, if_pos hw] at h
    exact absurd (PyVal.fin.inj h) (by linarith)
  by_cases hn : nRows df ≤ 1
  · rw [portVolV, if_neg hw, if_pos hn] at h
    exact PyVal.noConfusion h
  rw [portVolV, if_neg hw, if_neg hn, PyVal.pvSqrt] at h
  by_cases hq : quadForm df w < 0
  · rw [if_pos hq] at h
    exact PyVal.noConfusion h
  rw [if_neg hq] at h
  have hveq : v = Real.sqrt (quadForm df w) := (PyVal.fin.inj h).symm
  refine ⟨hw, by omega, hveq, ?_⟩
  exact Real.sqrt_pos.mp (hveq ▸ hv)

/-- On the domain where the portfolio volatility is a genuine number,
the portfolio return is one too. -/
theorem portRetV_fin (df : DataFrame) (w : List ℝ) (hw : w ≠ [])
    (h2 : 2 ≤ nRows df) : ∃ rd, portRetV df w = PyVal.fin rd := by
  rw [portRetV]
  by_cases hn : w = [] ∨ df.names = []
  · rw [if_pos hn]
    exact ⟨0, rfl⟩
  · rw [if_neg hn, if_neg (by omega : ¬ nRows df = 0)]
    exact ⟨_, rfl⟩

/-- Annualising an optimizer entry whose annual volatility is a
positive number: its annual Sharpe is exactly the annual excess return
over the annual volatility. -/
theorem optAnnual_sharpe (df : DataFrame) (wv : List ℝ) (rf av : ℝ)
    (h : (annualizeOpt (optEntry df wv (rf / 252))).volatility = PyVal.fin av)
    (hav : 0 < av) :
    ∃ ar, (annualizeOpt (optEntry df wv (rf / 252))).ret = PyVal.fin ar ∧
      (annualizeOpt (optEntry df wv (rf / 252))).sharpe =
        PyVal.fin ((ar - rf) / av) := by
  have hs252 : (0 : ℝ) < Real.sqrt 252 := Real.sqrt_pos.mpr (by norm_num)
  have h' : PyVal.pvMul (portVolV df wv) (PyVal.fin (Real.sqrt 252)) =
      PyVal.fin av := h
  obtain ⟨x, hx, havx⟩ := pvMul_fin_pos _ _ _ hs252 h'
  have hxpos : 0 < x := by
    rcases mul_pos_iff.mp (havx ▸ hav) with ⟨h1, _⟩ | ⟨_, h2⟩
    · exact h1
    · linarith
  obtain ⟨hwne, h2, -, -⟩ := portVolV_fin_pos df wv x hx hxpos
  obtain ⟨rd, hrd⟩ := portRetV_fin df wv hwne h2
  have hx0 : x ≠ 0 := ne_of_gt hxpos
  refine ⟨rd * 252, ?_, ?_⟩
  · show PyVal.pvMul (portRetV df wv) (PyVal.fin 252) = _
    rw [hrd]
    rfl
  · show PyVal.pvMul (optEntry df wv (rf / 252)).sharpe
        (PyVal.fin (Real.sqrt 252)) = _
    have hsh : (optEntry df wv (rf / 252)).sharpe =
        PyVal.fin ((rd - rf / 252) / x) := by
      rw [optEntry]
      simp only [hx, hrd]
      rw [if_pos (by exact hxpos)]
      simp [PyVal.pvSub, PyVal.pvDiv, hx0]
    rw [hsh]
    have h252 : Real.sqrt 252 * Real.sqrt 252 = 252 :=
      Real.mul_self_sqrt (by norm_num)
    have key : ((rd - rf / 252) / x) * Real.sqrt 252 =
        (rd * 252 - rf) / (x * Real.sqrt 252) := by
      rw [div_mul_eq_mul_div,
        div_eq_div_iff hx0 (by positivity : x * Real.sqrt 252 ≠ 0)]
      linear_combination ((rd - rf / 252) * x) * h252
    rw [PyVal.pvMul, key, havx]

/-- Projection of the assembled report onto the annualised
minimum-variance optimal portfolio. -/
theorem analyze_minvar (o : SolverOracle) (df : DataFrame)
    (w : Option (List ℝ)) (rf : ℝ) :
    (analyze o df w rf).optimal_portfolios.min_variance =
      annualizeOpt (optEntry df o.minVarW (rf / 252)) := rfl

/-- Projection of the assembled report onto the annualised
maximum-Sharpe optimal portfolio. -/
theorem analyze_maxsharpe (o : SolverOracle) (df : DataFrame)
    (w : Option (List ℝ)) (rf : ℝ) :
    (analyze o df w rf).optimal_portfolios.max_sharpe =
      annualizeOpt (optEntry df o.maxSharpeW (rf / 252)) := rfl

/-- Claim C2 (confirmed): whenever the reported annual volatility of an
optimal portfolio (minimum-variance or maximum-Sharpe) is a positive
number, its reported annual Sharpe equals (annual return - annual
risk-free rate) / annual volatility — the code's daily-Sharpe-times-
sqrt(252) coincides exactly with recomputing from annualised figures,
because the annual rate is 252 times the daily rate. -/
theorem c2_optimal_sharpe_annualization (o : SolverOracle) (df : DataFrame)
    (w : Option (List ℝ)) (rf : ℝ) :
    (∀ av : ℝ,
      (analyze o df w rf).optimal_portfolios.min_variance.volatility =
          PyVal.fin av → 0 < av →
      ∃ ar, (analyze o df w rf).optimal_portfolios.min_variance.ret =
          PyVal.fin ar ∧
        (analyze o df w rf).optimal_portfolios.min_variance.sharpe =
          PyVal.fin ((ar - rf) / av)) ∧
    (∀ av : ℝ,
      (analyze o df w rf).optimal_portfolios.max_sharpe.volatility =
          PyVal.fin av → 0 < av →
      ∃ ar, (analyze o df w rf).optimal_portfolios.max_sharpe.ret =
          PyVal.fin ar ∧
        (analyze o df w rf).optimal_portfolios.max_sharpe.sharpe =
          PyVal.fin ((ar - rf) / av)) := by
  constructor
  · intro av hv hav
    rw [analyze_minvar] at hv ⊢
    exact optAnnual_sharpe df o.minVarW rf av hv hav
  · intro av hv hav
    rw [analyze_maxsharpe] at hv ⊢
    exact optAnnual_sharpe df o.maxSharpeW rf av hv hav

/-- Claim C2 witness: on the two-day one-asset frame with returns 0 and
2 the solver weights `[1]` give annual volatility sqrt 2 * sqrt 252 > 0,
and the theorem yields the recomputed annual Sharpe. -/
theorem c2_witness :
    (analyze oracle0 df2r none 0.04).optimal_portfolios.min_variance.volatility =
        PyVal.fin (Real.sqrt 2 * Real.sqrt 252) ∧
      ∃ ar, (analyze oracle0 df2r none 0.04).optimal_portfolios.min_variance.ret =
          PyVal.fin ar ∧
        (analyze oracle0 df2r none 0.04).optimal_portfolios.min_variance.sharpe =
          PyVal.fin ((ar - 0.04) / (Real.sqrt 2 * Real.sqrt 252)) := by
  have hq : quadForm df2r [1] = 2 := by
    rw [quadForm]
    norm_num [df2r, dfCov, colAt, sampleCov, devs, rmean, Finset.sum_range_succ]
  have hpv : portVolV df2r [1] = PyVal.fin (Real.sqrt 2) := by
    rw [portVolV, if_neg (by simp), if_neg (by simp [nRows, df2r]), hq,
      PyVal.pvSqrt, if_neg (by norm_num)]
  have hvol : (analyze oracle0 df2r none 0.04).optimal_portfolios.min_variance.volatility =
      PyVal.fin (Real.sqrt 2 * Real.sqrt 252) := by
    rw [analyze_minvar]
    show PyVal.pvMul (portVolV df2r oracle0.minVarW) (PyVal.fin (Real.sqrt 252)) = _
    have : oracle0.minVarW = [1] := rfl
    rw [this, hpv]
    rfl
  exact ⟨hvol, (c2_optimal_sharpe_annualization oracle0 df2r none 0.04).1 _ hvol
    (by positivity)⟩

/-! ### Diversification-ratio lemmas and claim C5 -/

/-- Sum of squares over a list as a `Finset.range` sum. -/
theorem map_sq_sum_range (l : List ℝ) :
    (l.map (fun d => d ^ 2)).sum = ∑ i ∈ Finset.range l.length, l.getD i 0 ^ 2 := by
  have h1 : (l.map fun d => d ^ 2) = List.zipWith (fun a b => a * b) l l := by
    rw [zipWith_self]
    refine (List.map_congr_left ?_).symm
    intro d _
    ring
  rw [h1, zipWith_mul_sum_range l l rfl]
  exact Finset.sum_congr rfl (fun i _ => (sq (l.getD i 0)) ▸ (sq (l.getD i 0)).symm ▸ by ring)

/-- Length of a deviation list. -/
theorem devs_length (x : List ℝ) : (devs x).length = x.length := by
  simp [devs]

/-- Cauchy-Schwarz for the sample statistics: a covariance never
exceeds the product of the two standard deviations. -/
theorem sampleCov_le_stds (x y : List ℝ) (hlen : x.length = y.length)
    (h2 : 2 ≤ x.length) :
    sampleCov x y ≤ Real.sqrt (sampleVar x) * Real.sqrt (sampleVar y) := by
  have hc : (0 : ℝ) < (x.length : ℝ) - 1 := by
    have : (2 : ℝ) ≤ (x.length : ℝ) := by exact_mod_cast h2
    linarith
  set Sxy := (List.zipWith (fun a b => a * b) (devs x) (devs y)).sum with hSxy
  set Sx := ((devs x).map (fun d => d ^ 2)).sum with hSx
  set Sy := ((devs y).map (fun d => d ^ 2)).sum with hSy
  have hSx0 : 0 ≤ Sx := devsq_sum_nonneg x
  have hSy0 : 0 ≤ Sy := devsq_sum_nonneg y
  have hcs : Sxy ^ 2 ≤ Sx * Sy := by
    rw [hSxy, hSx, hSy, zipWith_mul_sum_range (devs x) (devs y)
        (by rw [devs_length, devs_length, hlen]),
      map_sq_sum_range, map_sq_sum_range, devs_length, devs_length, hlen]
    exact Finset.sum_mul_sq_le_sq_mul_sq (Finset.range y.length)
      (fun i => (devs x).getD i 0) (fun i => (devs y).getD i 0)
  have hstep : Sxy ≤ Real.sqrt (Sx * Sy) := by
    calc Sxy ≤ |Sxy| := le_abs_self Sxy
    _ = Real.sqrt (Sxy ^ 2) := (Real.sqrt_sq_eq_abs Sxy).symm
    _ ≤ Real.sqrt (Sx * Sy) := Real.sqrt_le_sqrt hcs
  have hrhs : Real.sqrt (sampleVar x) * Real.sqrt (sampleVar y) =
      Real.sqrt (Sx * Sy) / ((x.length : ℝ) - 1) := by
    rw [sampleVar, sampleVar, ← hSx, ← hSy, hlen,
      Real.sqrt_div hSx0, Real.sqrt_div hSy0, ← hlen]
    rw [Real.sqrt_mul hSx0, div_mul_div_comm,
      Real.mul_self_sqrt (le_of_lt hc)]
  rw [sampleCov, ← hSxy, hrhs]
  exact (div_le_div_iff_of_pos_right hc).mpr hstep

/-- The quadratic form of the covariance matrix under nonnegative
weights is bounded by the square of the weighted volatility sum. -/
theorem quadForm_le (df : DataFrame) (w : List ℝ) (hw : ∀ a ∈ w, 0 ≤ a)
    (h2 : 2 ≤ nRows df) :
    quadForm df w ≤ (∑ i ∈ Finset.range df.names.length,
      Real.sqrt (sampleVar (colAt df i)) * w.getD i 0) ^ 2 := by
  set n := df.names.length
  have hrhs : (∑ i ∈ Finset.range n,
      Real.sqrt (sampleVar (colAt df i)) * w.getD i 0) ^ 2 =
      ∑ i ∈ Finset.range n, ∑ j ∈ Finset.range n,
        (Real.sqrt (sampleVar (colAt df i)) * w.getD i 0) *
          (Real.sqrt (sampleVar (colAt df j)) * w.getD j 0) := by
    rw [sq, Finset.sum_mul_sum]
  rw [quadForm, hrhs]
  refine Finset.sum_le_sum ?_
  intro i _
  rw [Finset.mul_sum]
  refine Finset.sum_le_sum ?_
  intro j _
  have hclen : (colAt df i).length = (colAt df j).length := by
    simp [colAt]
  have hc2 : 2 ≤ (colAt df i).length := by
    simpa [colAt, nRows] using h2
  have hcov : dfCov df i j ≤
      Real.sqrt (sampleVar (colAt df i)) * Real.sqrt (sampleVar (colAt df j)) :=
    sampleCov_le_stds _ _ hclen hc2
  have hwij : 0 ≤ w.getD i 0 * w.getD j 0 :=
    mul_nonneg (getD_nonneg w hw i) (getD_nonneg w hw j)
  calc w.getD i 0 * (dfCov df i j * w.getD j 0)
      = (w.getD i 0 * w.getD j 0) * dfCov df i j := by ring
    _ ≤ (w.getD i 0 * w.getD j 0) *
        (Real.sqrt (sampleVar (colAt df i)) * Real.sqrt (sampleVar (colAt df j))) :=
        mul_le_mul_of_nonneg_left hcov hwij
    _ = (Real.sqrt (sampleVar (colAt df i)) * w.getD i 0) *
        (Real.sqrt (sampleVar (colAt df j)) * w.getD j 0) := by ring

/-- Claim C5 (corrected): for a full-length nonnegative weight vector
summing to 1, whenever the portfolio volatility is a positive number
the reported diversification ratio is a number at least 1, and when
the portfolio volatility is zero the reported field is the absent
marker.  The original parenthetical "equality only when all asset
pairs are perfectly correlated" is false and is dropped — see the
counterexample, where a zero-weight asset produces ratio exactly 1
with an uncorrelated pair present. -/
theorem c5_diversification_ratio_ge_one (o : SolverOracle) (df : DataFrame)
    (w : List ℝ) (rf : ℝ) (hlen : w.length = df.names.length)
    (hw : ∀ a ∈ w, 0 ≤ a) (hsum : w.sum = 1) :
    (∀ v : ℝ, portVolV df w = PyVal.fin v → 0 < v →
      ∃ d, divRatioV df w = PyVal.fin d ∧ 1 ≤ d) ∧
    (portVolV df w = PyVal.fin 0 →
      (analyzeW o df w rf).diversification_ratio = none) := by
  constructor
  · intro v hv hvpos
    obtain ⟨hwne, h2, hveq, hQpos⟩ := portVolV_fin_pos df w v hv hvpos
    have hdot : dotR ((List.range df.names.length).map
        (fun j => Real.sqrt (sampleVar (colAt df j)))) w =
        ∑ i ∈ Finset.range df.names.length,
          Real.sqrt (sampleVar (colAt df i)) * w.getD i 0 := by
      rw [← hlen]
      exact dotR_map_range w _
    have hsum_nn : 0 ≤ ∑ i ∈ Finset.range df.names.length,
        Real.sqrt (sampleVar (colAt df i)) * w.getD i 0 :=
      Finset.sum_nonneg (fun i _ =>
        mul_nonneg (Real.sqrt_nonneg _) (getD_nonneg w hw i))
    have hub : v ≤ ∑ i ∈ Finset.range df.names.length,
        Real.sqrt (sampleVar (colAt df i)) * w.getD i 0 := by
      rw [hveq]
      calc Real.sqrt (quadForm df w)
          ≤ Real.sqrt ((∑ i ∈ Finset.range df.names.length,
              Real.sqrt (sampleVar (colAt df i)) * w.getD i 0) ^ 2) :=
            Real.sqrt_le_sqrt (quadForm_le df w hw h2)
        _ = |∑ i ∈ Finset.range df.names.length,
              Real.sqrt (sampleVar (colAt df i)) * w.getD i 0| :=
            Real.sqrt_sq_eq_abs _
        _ = ∑ i ∈ Finset.range df.names.length,
              Real.sqrt (sampleVar (colAt df i)) * w.getD i 0 :=
            abs_of_nonneg hsum_nn
    refine ⟨dotR ((List.range df.names.length).map
        (fun j => Real.sqrt (sampleVar (colAt df j)))) w / v, ?_, ?_⟩
    · rw [divRatioV, hv]
      rw [if_pos (show PyVal.pvPos (PyVal.fin v) from hvpos)]
      rw [PyVal.pvDiv, if_neg (ne_of_gt hvpos)]
    · rw [hdot]
      exact (one_le_div hvpos).mpr (hdot ▸ hub)
  · intro h0
    show cleanValue (divRatioV df w) = none
    rw [divRatioV, h0, if_neg (show ¬ PyVal.pvPos (PyVal.fin 0) from lt_irrefl 0)]
    rfl

/-- Claim C5 counterexample: on the two-asset frame `df5` (correlation
0 between the columns) with weight vector `[1, 0]`, the portfolio
volatility is the positive number 1 and the diversification ratio is
exactly 1, yet the assets are not perfectly correlated — refuting the
claim's "equality only when all asset pairs are perfectly correlated". -/
theorem c5_counterexample :
    ¬ (∀ v : ℝ, portVolV df5 [(1 : ℝ), 0] = PyVal.fin v → 0 < v →
        ∀ d : ℝ, divRatioV df5 [(1 : ℝ), 0] = PyVal.fin d → 1 ≤ d ∧
          (d = 1 → ∀ i j : ℕ, i < j → j < df5.names.length →
            corrV df5 i j = PyVal.fin 1)) := by
  intro hcl
  have hq : quadForm df5 [(1 : ℝ), 0] = 1 := by
    rw [quadForm]
    norm_num [df5, dfCov, colAt, sampleCov, devs, rmean, Finset.sum_range_succ]
  have hpv : portVolV df5 [(1 : ℝ), 0] = PyVal.fin 1 := by
    rw [portVolV, if_neg (by simp), if_neg (by simp [nRows, df5]), hq,
      PyVal.pvSqrt, if_neg (by norm_num), Real.sqrt_one]
  have hvar0 : sampleVar (colAt df5 0) = 1 := by
    norm_num [df5, colAt, sampleVar, devs, rmean]
  have hvar1 : sampleVar (colAt df5 1) = 3 := by
    norm_num [df5, colAt, sampleVar, devs, rmean]
  have hdot : dotR ((List.range df5.names.length).map
      (fun j => Real.sqrt (sampleVar (colAt df5 j)))) [(1 : ℝ), 0] = 1 := by
    have hlen5 : df5.names.length = 2 := by simp [df5]
    rw [hlen5]
    norm_num [List.range_succ, dotR, hvar0, Real.sqrt_one]
  have hdr : divRatioV df5 [(1 : ℝ), 0] = PyVal.fin 1 := by
    rw [divRatioV, hpv, if_pos (show PyVal.pvPos (PyVal.fin 1) from one_pos),
      PyVal.pvDiv, if_neg (by norm_num : (1 : ℝ) ≠ 0), hdot]
    norm_num
  have hcov01 : dfCov df5 0 1 = 0 := by
    norm_num [df5, dfCov, colAt, sampleCov, devs, rmean]
  have hcorr : corrV df5 0 1 = PyVal.fin 0 := by
    rw [corrV, if_neg (by simp [nRows, df5]),
      if_neg (by rw [hvar0, hvar1]; norm_num), hcov01]
    norm_num
  obtain ⟨-, himp⟩ := hcl 1 hpv one_pos 1 hdr
  have hbad := himp rfl 0 1 (by norm_num) (by simp [df5])
  rw [hcorr] at hbad
  exact absurd (PyVal.fin.inj hbad) (by norm_num)

/-- Claim C5 witness: the amended statement on `df5` with equal weights
`[1/2, 1/2]` — portfolio volatility 1, diversification ratio at
least 1. -/
theorem c5_witness :
    ∃ d, divRatioV df5 [(1 : ℝ) / 2, 1 / 2] = PyVal.fin d ∧ 1 ≤ d := by
  have hq : quadForm df5 [(1 : ℝ) / 2, 1 / 2] = 1 := by
    rw [quadForm]
    norm_num [df5, dfCov, colAt, sampleCov, devs, rmean, Finset.sum_range_succ]
  have hpv : portVolV df5 [(1 : ℝ) / 2, 1 / 2] = PyVal.fin 1 := by
    rw [portVolV, if_neg (by simp), if_neg (by simp [nRows, df5]), hq,
      PyVal.pvSqrt, if_neg (by norm_num), Real.sqrt_one]
  exact (c5_diversification_ratio_ge_one oracle0 df5 [(1 : ℝ) / 2, 1 / 2] 0.04
    (by simp [df5]) (by norm_num) (by norm_num)).1 1 hpv one_pos

/-! ### Rolling-Sharpe lemmas and claim C6 -/

/-- A filterMap whose function is an if-guard is a filter followed by a
map. -/
theorem filterMap_if {α β : Type} (p : α → Prop) (f : α → β) (l : List α) :
    (l.filterMap fun a => if p a then some (f a) else none) =
      (l.filter fun a => decide (p a)).map f := by
  induction l with
  | nil => rfl
  | cons a l ih =>
    by_cases h : p a
    · simp [List.filterMap_cons, List.filter_cons, h, ih]
    · simp [List.filterMap_cons, List.filter_cons, h, ih]

/-- Filtering an index range by a lower bound conjoined with a predicate
is filtering the tail range by the predicate alone. -/
theorem range_filter_and (n k : ℕ) (hk : k ≤ n) (p : ℕ → Prop) :
    ((List.range n).filter fun i => decide (k ≤ i ∧ p i)) =
      (List.range' k (n - k)).filter fun i => decide (p i) := by
  rw [List.range_eq_range']
  have hsplit : List.range' 0 n = List.range' 0 k ++ List.range' k (n - k) := by
    have h := List.range'_append 0 k (n - k) 1
    simp only [one_mul, zero_add] at h
    rw [h, Nat.sub_add_cancel hk]
  rw [hsplit, List.filter_append]
  have h1 : ((List.range' 0 k).filter fun i => decide (k ≤ i ∧ p i)) = [] := by
    rw [List.filter_eq_nil_iff]
    intro a ha
    have : a < k := by
      have := List.mem_range'_1.mp ha
      omega
    simp only [decide_eq_true_eq]
    intro hcon
    omega
  have h2 : ((List.range' k (n - k)).filter fun i => decide (k ≤ i ∧ p i)) =
      (List.range' k (n - k)).filter fun i => decide (p i) := by
    refine List.filter_congr ?_
    intro a ha
    have hka : k ≤ a := (List.mem_range'_1.mp ha).1
    simp [hka]
  rw [h1, h2, List.nil_append]

/-- Claim C6 (corrected): the rolling-Sharpe series contains one point
for each day index at least 89 WHOSE trailing 90-day window has
positive standard deviation, tagged with the window-end date and
holding the window's annualised Sharpe; indices whose window standard
deviation is not positive are skipped entirely (the original claim's
"exactly one point for every index at least 89" fails on constant
windows — see the counterexample), and series shorter than 90 days
yield no points. -/
theorem c6_rolling_sharpe_characterization (pr : List ℝ) (dates : List String)
    (rfDaily : ℝ) :
    rollingSharpeSeries pr dates rfDaily =
      ((List.range pr.length).filter fun i =>
        decide (89 ≤ i ∧ 0 < windowStd pr i)).map
        (rollingPoint pr dates rfDaily) := by
  by_cases hlen : 90 ≤ pr.length
  · rw [rollingSharpeSeries, if_pos hlen,
      range_filter_and pr.length 89 (by omega) (fun i => 0 < windowStd pr i),
      filterMap_if (fun i => 0 < windowStd pr i) (rollingPoint pr dates rfDaily)]
  · rw [rollingSharpeSeries, if_neg hlen]
    symm
    rw [List.map_eq_nil_iff, List.filter_eq_nil_iff]
    intro a ha
    have : a < pr.length := List.mem_range.mp ha
    simp only [decide_eq_true_eq]
    intro hcon
    omega

/-- Claim C6 counterexample: on 90 days of identically zero returns the
window standard deviation is zero, so the rolling-Sharpe series is
empty — not one point per day index at least 89 as the claim states
(which would require exactly one point here). -/
theorem c6_counterexample :
    ¬ (rollingSharpeSeries (List.replicate 90 (0 : ℝ))
        (List.replicate 90 "2020-01-02") 0).length =
      (List.replicate 90 (0 : ℝ)).length - 89 := by
  have hvar : sampleVar (List.replicate 90 (0 : ℝ)) = 0 := by
    simp [sampleVar, devs, rmean, List.sum_replicate]
  have hstd : windowStd (List.replicate 90 (0 : ℝ)) 89 = 0 := by
    rw [windowStd]
    have htd : ((List.replicate 90 (0 : ℝ)).take (89 + 1)).drop (89 - 89) =
        List.replicate 90 (0 : ℝ) := by
      simp [List.take_replicate]
    rw [htd, hvar, Real.sqrt_zero]
  have hser : rollingSharpeSeries (List.replicate 90 (0 : ℝ))
      (List.replicate 90 "2020-01-02") 0 = [] := by
    rw [rollingSharpeSeries, if_pos (by simp)]
    have hone : (List.replicate 90 (0 : ℝ)).length - 89 = 1 := by simp
    rw [hone]
    have hr : List.range' 89 1 = [89] := rfl
    rw [hr, List.filterMap_cons]
    rw [if_neg (by rw [hstd]; exact lt_irrefl 0)]
    rfl
  rw [hser]
  simp

/-! ### Claim C7 -/

/-- Helper: the constant two-day frame has zero portfolio volatility
under the whole weight `[1]`. -/
theorem portVolV_df7 : portVolV df7 [(1 : ℝ)] = PyVal.fin 0 := by
  have hq : quadForm df7 [(1 : ℝ)] = 0 := by
    rw [quadForm]
    norm_num [df7, dfCov, colAt, sampleCov, devs, rmean, Finset.sum_range_succ]
  rw [portVolV, if_neg (by simp), if_neg (by simp [nRows, df7]), hq,
    PyVal.pvSqrt, if_neg (by norm_num), Real.sqrt_zero]

/-- Claim C7 (corrected): when the portfolio volatility is exactly
zero the daily and annual portfolio Sharpe fields are the absent
marker, and a per-asset annualised volatility of zero makes that
asset's Sharpe the absent marker; but for the optimizer's
minimum-variance and maximum-Sharpe portfolios the code reports the
NUMBER 0 for the Sharpe at zero volatility (line 102/108 of
metrics.py), not the absent marker the claim requires. -/
theorem c7_zero_volatility_sharpe_fields (o : SolverOracle) (df : DataFrame)
    (w : List ℝ) (rf : ℝ) :
    (portVolV df w = PyVal.fin 0 →
      (analyzeW o df w rf).portfolio_sharpe_daily = none ∧
      (analyzeW o df w rf).portfolio_sharpe_annual = none) ∧
    (∀ j, j < df.names.length →
      PyVal.pvMul (stdV df j) (PyVal.fin (Real.sqrt 252)) = PyVal.fin 0 →
      ((analyzeW o df w rf).asset_sharpes.getD j ("", some PyVal.nan)).2 = none) ∧
    (portVolV df o.minVarW = PyVal.fin 0 →
      (analyzeW o df w rf).optimal_portfolios.min_variance.sharpe =
        PyVal.fin 0) ∧
    (portVolV df o.maxSharpeW = PyVal.fin 0 →
      (analyzeW o df w rf).optimal_portfolios.max_sharpe.sharpe =
        PyVal.fin 0) := by
  refine ⟨fun h => ⟨?_, ?_⟩, fun j hj hja => ?_, fun h => ?_, fun h => ?_⟩
  · show cleanValue (sharpeDailyV df w (rf / 252)) = none
    rw [sharpeDailyV, h, if_neg (show ¬ PyVal.pvPos (PyVal.fin 0) from lt_irrefl 0)]
    rfl
  · show cleanValue (annSharpeV df w rf) = none
    rw [annSharpeV, if_neg ?_]
    · rfl
    · rw [annVolV, h]
      show ¬ ((0 : ℝ) < 0 * Real.sqrt 252)
      rw [zero_mul]
      exact lt_irrefl 0
  · have hacc : (analyzeW o df w rf).asset_sharpes.getD j ("", some PyVal.nan) =
        (df.names.getD j "", cleanOpt (assetSharpeOf df rf j)) :=
      getD_map_range df.names.length _ j _ hj
    rw [hacc]
    simp only [assetSharpeOf]
    rw [hja]
    simp [PyVal.pvPos, cleanOpt]
  · show PyVal.pvMul (optEntry df o.minVarW (rf / 252)).sharpe
        (PyVal.fin (Real.sqrt 252)) = PyVal.fin 0
    simp only [optEntry]
    rw [h, if_neg (show ¬ PyVal.pvPos (PyVal.fin 0) from lt_irrefl 0)]
    simp [PyVal.pvMul]
  · show PyVal.pvMul (optEntry df o.maxSharpeW (rf / 252)).sharpe
        (PyVal.fin (Real.sqrt 252)) = PyVal.fin 0
    simp only [optEntry]
    rw [h, if_neg (show ¬ PyVal.pvPos (PyVal.fin 0) from lt_irrefl 0)]
    simp [PyVal.pvMul]

/-- Claim C7 counterexample: on the constant two-day frame the
optimizer's minimum-variance volatility is the number 0, yet the
reported optimizer Sharpe is the number 0 rather than the absent/NaN
sentinel the claim requires for a zero volatility denominator. -/
theorem c7_counterexample :
    ¬ ((analyzeW oracle0 df7 [(1 : ℝ)] 0.04).optimal_portfolios.min_variance.volatility =
          PyVal.fin 0 →
        (analyzeW oracle0 df7 [(1 : ℝ)] 0.04).optimal_portfolios.min_variance.sharpe =
          PyVal.nan) := by
  intro himp
  have hvol : (analyzeW oracle0 df7 [(1 : ℝ)] 0.04).optimal_portfolios.min_variance.volatility =
      PyVal.fin 0 := by
    show PyVal.pvMul (portVolV df7 oracle0.minVarW) (PyVal.fin (Real.sqrt 252)) =
      PyVal.fin 0
    rw [show portVolV df7 oracle0.minVarW = PyVal.fin 0 from portVolV_df7]
    simp [PyVal.pvMul]
  have hsh : (analyzeW oracle0 df7 [(1 : ℝ)] 0.04).optimal_portfolios.min_variance.sharpe =
      PyVal.fin 0 := by
    show PyVal.pvMul (optEntry df7 oracle0.minVarW (0.04 / 252)).sharpe
        (PyVal.fin (Real.sqrt 252)) = PyVal.fin 0
    simp only [optEntry]
    rw [show portVolV df7 oracle0.minVarW = PyVal.fin 0 from portVolV_df7,
      if_neg (show ¬ PyVal.pvPos (PyVal.fin 0) from lt_irrefl 0)]
    simp [PyVal.pvMul]
  rw [hsh] at himp
  exact PyVal.noConfusion (himp hvol)

/-- Claim C7 witness: the amended statement on the constant two-day
frame — absent daily Sharpe and the number 0 for the optimizer Sharpe. -/
theorem c7_witness :
    (analyzeW oracle0 df7 [(1 : ℝ)] 0.04).portfolio_sharpe_daily = none ∧
      (analyzeW oracle0 df7 [(1 : ℝ)] 0.04).optimal_portfolios.min_variance.sharpe =
        PyVal.fin 0 := by
  have hc := c7_zero_volatility_sharpe_fields oracle0 df7 [(1 : ℝ)] 0.04
  exact ⟨(hc.1 portVolV_df7).1,
    hc.2.2.1 (show portVolV df7 oracle0.minVarW = PyVal.fin 0 from portVolV_df7)⟩

/-! ### Claim C10 -/

/-- Keys of an index-range pair list are exactly the names. -/
theorem map_fst_range_pairs {β : Type} (names : List String) (v : ℕ → β) :
    (((List.range names.length).map
      (fun j => (names.getD j "", v j))).map Prod.fst) = names := by
  rw [List.map_map]
  exact map_getD_range names ""

/-- The marginal-contribution vector has one entry per asset column. -/
theorem varianceContribs_length (df : DataFrame) (w : List ℝ) :
    (varianceContribs df w).length = df.names.length := by
  rw [varianceContribs]
  split <;> simp

/-- Positional access through a map. -/
theorem getD_map_lt {α β : Type} (f : α → β) (l : List α) (i : ℕ)
    (h : i < l.length) (d : β) (d0 : α) :
    (l.map f).getD i d = f (l.getD i d0) := by
  rw [List.getD_eq_getElem?_getD, List.getElem?_map, List.getElem?_eq_getElem h,
    List.getD_eq_getElem?_getD, List.getElem?_eq_getElem h]
  rfl

/-- Claim C10 (confirmed): for a weight vector of one entry per column
(the data-model invariant), every per-asset mapping of the report is
keyed by exactly the input column names in input order, and the
asset-weights and variance-contribution mappings pair the i-th column
name with the i-th entry of the corresponding vector. -/
theorem c10_per_asset_key_alignment (o : SolverOracle) (df : DataFrame)
    (w : List ℝ) (rf : ℝ) (hlen : w.length = df.names.length) :
    (analyzeW o df w rf).asset_means.map Prod.fst = df.names ∧
    (analyzeW o df w rf).asset_vols.map Prod.fst = df.names ∧
    (analyzeW o df w rf).asset_weights.map Prod.fst = df.names ∧
    (analyzeW o df w rf).asset_return_contributions.map Prod.fst = df.names ∧
    (analyzeW o df w rf).asset_variance_contributions.map Prod.fst = df.names ∧
    (analyzeW o df w rf).asset_sharpes.map Prod.fst = df.names ∧
    (∀ i, i < df.names.length →
      (analyzeW o df w rf).asset_weights.getD i ("", 0) =
        (df.names.getD i "", w.getD i 0)) ∧
    (∀ i, i < df.names.length →
      (analyzeW o df w rf).asset_variance_contributions.getD i ("", none) =
        (df.names.getD i "",
          cleanValue (PyVal.fin ((varianceContribs df w).getD i 0)))) := by
  refine ⟨?_, ?_, ?_, ?_, ?_, ?_, ?_, ?_⟩
  · exact map_fst_range_pairs df.names _
  · exact map_fst_range_pairs df.names _
  · exact List.map_fst_zip df.names w (le_of_eq hlen.symm)
  · exact map_fst_range_pairs df.names _
  · show ((df.names.zip ((varianceContribs df w).map
        (fun c => cleanValue (PyVal.fin c)))).map Prod.fst) = df.names
    refine List.map_fst_zip df.names _ ?_
    rw [List.length_map, varianceContribs_length]
  · exact map_fst_range_pairs df.names _
  · intro i hi
    show (df.names.zip w).getD i ("", 0) = (df.names.getD i "", w.getD i 0)
    exact zip_getD df.names w i "" 0 hi (by omega)
  · intro i hi
    show (df.names.zip ((varianceContribs df w).map
        (fun c => cleanValue (PyVal.fin c)))).getD i ("", none) =
      (df.names.getD i "", cleanValue (PyVal.fin ((varianceContribs df w).getD i 0)))
    rw [zip_getD df.names _ i "" none hi
      (by rw [List.length_map, varianceContribs_length]; exact hi)]
    rw [getD_map_lt _ _ i (by rw [varianceContribs_length]; exact hi) none 0]

/-- Claim C10 witness: the alignment statement on the concrete
two-asset frame with equal weights. -/
theorem c10_witness :
    (analyzeW oracle0 df5 [(1 : ℝ) / 2, 1 / 2] 0.04).asset_means.map Prod.fst =
        df5.names ∧
      (analyzeW oracle0 df5 [(1 : ℝ) / 2, 1 / 2] 0.04).asset_weights.getD 0 ("", 0) =
        (df5.names.getD 0 "", ([(1 : ℝ) / 2, 1 / 2]).getD 0 0) := by
  have hc := c10_per_asset_key_alignment oracle0 df5 [(1 : ℝ) / 2, 1 / 2] 0.04
    (by simp [df5])
  exact ⟨hc.1, hc.2.2.2.2.2.2.1 0 (by simp [df5])⟩

/-! ### Claim C1 -/

/-- Anything that passed through `clean_value` is finite or absent. -/
theorem cleanOk_cleanValue (v : PyVal) : cleanOk (cleanValue v) := by
  intro u hu
  cases v with
  | fin x => exact ⟨x, (Option.some.inj hu).symm⟩
  | nan => exact Option.noConfusion hu
  | inf => exact Option.noConfusion hu
  | ninf => exact Option.noConfusion hu

/-- Anything that passed through the float-or-None cleaning is finite
or absent. -/
theorem cleanOk_cleanOpt (o : Option PyVal) : cleanOk (cleanOpt o) := by
  cases o with
  | none => intro u hu; exact Option.noConfusion hu
  | some v => exact cleanOk_cleanValue v

/-- Claim C1 counterexample: on a one-row frame the pandas ddof-1
standard deviation is NaN, and `asset_vols` is returned raw
(`volatilities.to_dict()`, metrics.py line 358, has no `clean_value`),
so the report contains a NaN — the claim that every numeric field of
the report is finite-or-absent is false. -/
theorem c1_counterexample :
    ¬ reportAllFinite (analyze oracle0 df1 none 0.04) := by
  intro h
  have hstd : stdV df1 0 = PyVal.nan := by
    rw [stdV, if_pos (by simp [nRows, df1])]
  have hmem : (("A", PyVal.nan) : String × PyVal) ∈
      (analyze oracle0 df1 none 0.04).asset_vols := by
    show (("A", PyVal.nan) : String × PyVal) ∈
      (List.range df1.names.length).map (fun j => (df1.names.getD j "", stdV df1 j))
    have h1 : df1.names.length = 1 := by simp [df1]
    have hr : List.range 1 = [0] := rfl
    rw [h1, hr]
    simp only [List.map_cons, List.map_nil]
    rw [hstd]
    simp [df1]
  rcases h.2.1 _ hmem with ⟨x, hx⟩
  exact PyVal.noConfusion hx

/-- Claim C1 (corrected): every report field the source routes through
`clean_value` (the portfolio scalars, max drawdown, Sortino, beta, the
top-correlation values, diversification ratio, the per-asset
contribution and Sharpe maps, the windowed metrics and all time-series
values) is finite or the absent marker for every input; but
`asset_means`, `asset_vols`, `correlation_matrix`, `asset_weights`,
`optimal_portfolios` and `efficient_frontier` are returned without the
cleaning pass and can carry NaN (see the counterexample). -/
theorem c1_cleaned_fields_finite_or_none (o : SolverOracle) (df : DataFrame)
    (w : Option (List ℝ)) (rf : ℝ) :
    cleanedFieldsOk (analyze o df w rf) := by
  refine ⟨?_, ?_, ?_, ?_, ?_, ?_, ?_, ?_, ?_, ?_, ?_, ?_, ?_, ?_, ?_, ?_, ?_,
    ?_, ?_, ?_⟩
  · exact cleanOk_cleanValue _
  · exact cleanOk_cleanValue _
  · exact cleanOk_cleanValue _
  · exact cleanOk_cleanValue _
  · exact cleanOk_cleanValue _
  · exact cleanOk_cleanValue _
  · exact cleanOk_cleanValue _
  · exact cleanOk_cleanValue _
  · exact cleanOk_cleanValue _
  · exact cleanOk_cleanValue _
  · intro t ht
    rcases List.mem_map.mp ht with ⟨u, -, rfl⟩
    exact cleanOk_cleanValue _
  · exact cleanOk_cleanValue _
  · intro p hp
    rcases List.mem_map.mp hp with ⟨j, -, rfl⟩
    exact cleanOk_cleanValue _
  · intro p hp
    have h2 := (List.of_mem_zip hp).2
    rcases List.mem_map.mp h2 with ⟨c, -, hc⟩
    rw [← hc]
    exact cleanOk_cleanValue _
  · intro p hp
    rcases List.mem_map.mp hp with ⟨j, -, rfl⟩
    exact cleanOk_cleanOpt _
  · intro e he
    rcases List.mem_map.mp he with ⟨q, -, rfl⟩
    refine ⟨?_, ?_, ?_⟩
    · simp only [windowEntryOf]
      exact cleanOk_cleanValue _
    · simp only [windowEntryOf]
      exact cleanOk_cleanValue _
    · simp only [windowEntryOf]
      exact cleanOk_cleanOpt _
  · intro v hv
    rcases List.mem_map.mp hv with ⟨c, -, rfl⟩
    exact cleanOk_cleanValue _
  · intro p hp
    rcases List.mem_map.mp hp with ⟨q, -, rfl⟩
    exact cleanOk_cleanValue (PyVal.fin q.2)
  · intro v hv
    rcases List.mem_map.mp hv with ⟨d, -, rfl⟩
    exact cleanOk_cleanValue _
  · intro p hp
    rcases List.mem_map.mp hp with ⟨j, -, rfl⟩
    intro v hv
    rcases List.mem_map.mp hv with ⟨c, -, rfl⟩
    exact cleanOk_cleanValue _
